import Mathlib

/-
Verification of the account erasure engine of the social-network backend
(`src/utils/deleteUserAndData.ts`): the batched table purger
(`deleteInBatches`), the preflight validator (`validateUserDeletion`), the
safety-net soft delete (`softDeleteUser`), the cascade orchestrator
(`deleteUserAndData`) and the preview reporter (`previewUserDeletion`).

The relational store is modelled as explicit lists of rows, one list per
entity family, with the foreign-key fields that the source's where-filters
and the spec's data model (§3) mention.  The Prisma client and the table
schema are not part of the repository source; where their behaviour decides
a claim (foreign-key enforcement, transaction rollback), the corresponding
definition is modelled from the spec and marked as such.

Timestamps (`Date.now()`, `new Date()`) are modelled as explicit `Nat`
parameters.  Console logging has no semantic effect and is not modelled,
except that the sequence of writes issued inside the transaction is
recorded as an explicit event trace, which the ordering claims are about.
-/

namespace SocialErase

/-! ### Decimal rendering of timestamps

JavaScript template interpolation `${Date.now()}` renders the timestamp in
decimal.  `natStr` is that rendering, implemented with explicit fuel so
that it reduces inside the kernel; `natStr_injective` is proved via the
round-trip `undigits`. -/

/-- Decimal digit as a character (`0` ↦ `'0'`, …, `9` ↦ `'9'`). -/
def digitChar (d : Nat) : Char := Char.ofNat (48 + d)

/-- Little-endian decimal digits of `n`, with explicit fuel.  Fuel `n`
always suffices (`undigits_digitsFuel`). -/
def digitsFuel : Nat → Nat → List Nat
  | 0, _ => []
  | _ + 1, 0 => []
  | f + 1, n + 1 => ((n + 1) % 10) :: digitsFuel f ((n + 1) / 10)

/-- Recombine little-endian decimal digits into a number. -/
def undigits : List Nat → Nat
  | [] => 0
  | d :: ds => d + 10 * undigits ds

theorem undigits_digitsFuel : ∀ f n, n ≤ f → undigits (digitsFuel f n) = n := by
  intro f
  induction f with
  | zero => intro n h; interval_cases n; rfl
  | succ f ih =>
    intro n h
    match n with
    | 0 => rfl
    | n + 1 =>
      have hdiv : (n + 1) / 10 ≤ f := by
        have h1 : (n + 1) / 10 < n + 1 := Nat.div_lt_self (Nat.succ_pos n) (by omega)
        omega
      simp only [digitsFuel, undigits, ih _ hdiv]
      omega

theorem digitsFuel_lt_ten : ∀ f n d, d ∈ digitsFuel f n → d < 10 := by
  intro f
  induction f with
  | zero => intro n d h; simp [digitsFuel] at h
  | succ f ih =>
    intro n d h
    match n with
    | 0 => simp [digitsFuel] at h
    | n + 1 =>
      simp only [digitsFuel, List.mem_cons] at h
      rcases h with h | h
      · subst h; exact Nat.mod_lt _ (by omega)
      · exact ih _ _ h

/-- Decimal string of a natural number, as JavaScript renders it. -/
def natStr (n : Nat) : String :=
  if n = 0 then "0" else String.mk ((digitsFuel n n).reverse.map digitChar)

theorem digitChar_inj_lt : ∀ a < 10, ∀ b < 10, digitChar a = digitChar b → a = b := by
  decide

theorem map_digitChar_inj : ∀ l1 l2 : List Nat, (∀ d ∈ l1, d < 10) → (∀ d ∈ l2, d < 10) →
    l1.map digitChar = l2.map digitChar → l1 = l2 := by
  intro l1
  induction l1 with
  | nil => intro l2 _ _ h; cases l2 <;> simp_all
  | cons a l1 ih =>
    intro l2 h1 h2 h
    cases l2 with
    | nil => simp at h
    | cons b l2 =>
      simp only [List.map_cons, List.cons.injEq] at h
      have ha : a = b :=
        digitChar_inj_lt a (h1 a (by simp)) b (h2 b (by simp)) h.1
      have hl : l1 = l2 :=
        ih l2 (fun d hd => h1 d (by simp [hd])) (fun d hd => h2 d (by simp [hd])) h.2
      simp [ha, hl]

theorem natStr_injective : ∀ a b, natStr a = natStr b → a = b := by
  intro a b h
  unfold natStr at h
  by_cases ha : a = 0 <;> by_cases hb : b = 0 <;> simp [ha, hb] at h ⊢
  · -- a = 0, b ≠ 0 : "0" = rendering of b forces digits of b to be [0]
    have hd : (digitsFuel b b).reverse.map digitChar = ['0'] := by
      have := congrArg String.data h
      simpa using this.symm
    have : (digitsFuel b b).reverse = [0] := by
      have h0 : ('0' : Char) = digitChar 0 := by decide
      rw [h0] at hd
      have := map_digitChar_inj _ [0]
        (fun d hdm => digitsFuel_lt_ten b b d (List.mem_reverse.mp hdm))
        (by intro d hd; simp at hd; omega) (by simpa using hd)
      exact this
    have : digitsFuel b b = [0] := by
      have := congrArg List.reverse this
      simpa using this
    have hb' : undigits (digitsFuel b b) = b := undigits_digitsFuel b b (le_refl b)
    rw [this] at hb'
    simp [undigits] at hb'
    omega
  · -- a ≠ 0, b = 0 : symmetric
    have hd : (digitsFuel a a).reverse.map digitChar = ['0'] := by
      have := congrArg String.data h
      simpa using this
    have : (digitsFuel a a).reverse = [0] := by
      have h0 : ('0' : Char) = digitChar 0 := by decide
      rw [h0] at hd
      exact map_digitChar_inj _ [0]
        (fun d hdm => digitsFuel_lt_ten a a d (List.mem_reverse.mp hdm))
        (by intro d hd; simp at hd; omega) (by simpa using hd)
    have : digitsFuel a a = [0] := by
      have := congrArg List.reverse this
      simpa using this
    have ha' : undigits (digitsFuel a a) = a := undigits_digitsFuel a a (le_refl a)
    rw [this] at ha'
    simp [undigits] at ha'
    omega
  · -- both nonzero
    have hdata := congrArg String.data h
    simp only [String.mk, List.map_reverse] at hdata
    have hmap : (digitsFuel a a).map digitChar = (digitsFuel b b).map digitChar :=
      List.reverse_injective hdata
    have hdig : digitsFuel a a = digitsFuel b b :=
      map_digitChar_inj _ _ (digitsFuel_lt_ten a a) (digitsFuel_lt_ten b b) hmap
    have := undigits_digitsFuel a a (le_refl a)
    rw [hdig, undigits_digitsFuel b b (le_refl b)] at this
    omega

/-! ### Data model

One structure per entity family, with the identifier and foreign-key
fields that the where-filters of `deleteUserAndData` and the spec's data
model (§3) use.  Ids and timestamps are `Nat`. -/

structure UserRow where
  id : Nat
  isActive : Bool
  isBanned : Bool
  banReason : Option String
  email : String
  username : String
  updatedAt : Nat
deriving DecidableEq

structure PostRow where
  id : Nat
  authorId : Nat
deriving DecidableEq

structure PostTagRow where
  id : Nat
  postId : Nat
deriving DecidableEq

structure CommentRow where
  id : Nat
  authorId : Nat
  postId : Nat
deriving DecidableEq

structure CommentLikeRow where
  id : Nat
  userId : Nat
  commentId : Nat
deriving DecidableEq

structure CommentAuthorInfoRow where
  id : Nat
  authorId : Nat
  commentId : Nat
deriving DecidableEq

structure LikeRow where
  id : Nat
  userId : Nat
  postId : Nat
deriving DecidableEq

structure SavedPostRow where
  id : Nat
  userId : Nat
  postId : Nat
deriving DecidableEq

structure StoryRow where
  id : Nat
  userId : Nat
deriving DecidableEq

structure StoryViewRow where
  id : Nat
  viewerId : Nat
  storyId : Nat
deriving DecidableEq

structure StoryLikeRow where
  id : Nat
  userId : Nat
  storyId : Nat
deriving DecidableEq

structure StoryHighlightRow where
  id : Nat
  userId : Nat
  storyId : Nat
deriving DecidableEq

structure FollowRow where
  id : Nat
  followerId : Nat
  followingId : Nat
deriving DecidableEq

structure FollowRequestRow where
  id : Nat
  senderId : Nat
  receiverId : Nat
deriving DecidableEq

structure ConversationRow where
  id : Nat
  user1Id : Nat
  user2Id : Nat
deriving DecidableEq

structure MessageRow where
  id : Nat
  senderId : Nat
  recipientId : Nat
  conversationId : Nat
deriving DecidableEq

structure NotificationRow where
  id : Nat
  userId : Nat
  actorId : Nat
deriving DecidableEq

structure UserSettingsRow where
  id : Nat
  userId : Nat
deriving DecidableEq

structure UserRoleRow where
  id : Nat
  userId : Nat
  role : String
deriving DecidableEq

structure VerificationTokenRow where
  id : Nat
  userId : Nat
deriving DecidableEq

structure SessionRow where
  id : Nat
  userId : Nat
deriving DecidableEq

structure UserMediaRow where
  id : Nat
  userId : Nat
deriving DecidableEq

structure UserActivityLogRow where
  id : Nat
  userId : Nat
deriving DecidableEq

structure ReportRow where
  id : Nat
  reporterId : Nat
deriving DecidableEq

/-- The database state: one list of rows per entity family. -/
structure DB where
  users : List UserRow
  posts : List PostRow
  postTags : List PostTagRow
  comments : List CommentRow
  commentLikes : List CommentLikeRow
  commentAuthorInfos : List CommentAuthorInfoRow
  likes : List LikeRow
  savedPosts : List SavedPostRow
  stories : List StoryRow
  storyViews : List StoryViewRow
  storyLikes : List StoryLikeRow
  storyHighlights : List StoryHighlightRow
  follows : List FollowRow
  followRequests : List FollowRequestRow
  conversations : List ConversationRow
  messages : List MessageRow
  notifications : List NotificationRow
  userSettings : List UserSettingsRow
  userRoles : List UserRoleRow
  verificationTokens : List VerificationTokenRow
  sessions : List SessionRow
  userMedias : List UserMediaRow
  userActivityLogs : List UserActivityLogRow
  reports : List ReportRow
deriving DecidableEq

/-- Some row in some family holds a user foreign key equal to `uid`
(every user-valued column of the spec's data model, §3). -/
def dbRefsUser (db : DB) (uid : Nat) : Bool :=
  db.posts.any (fun r => r.authorId == uid) ||
  db.comments.any (fun r => r.authorId == uid) ||
  db.commentLikes.any (fun r => r.userId == uid) ||
  db.commentAuthorInfos.any (fun r => r.authorId == uid) ||
  db.likes.any (fun r => r.userId == uid) ||
  db.savedPosts.any (fun r => r.userId == uid) ||
  db.stories.any (fun r => r.userId == uid) ||
  db.storyViews.any (fun r => r.viewerId == uid) ||
  db.storyLikes.any (fun r => r.userId == uid) ||
  db.storyHighlights.any (fun r => r.userId == uid) ||
  db.follows.any (fun r => r.followerId == uid || r.followingId == uid) ||
  db.followRequests.any (fun r => r.senderId == uid || r.receiverId == uid) ||
  db.conversations.any (fun r => r.user1Id == uid || r.user2Id == uid) ||
  db.messages.any (fun r => r.senderId == uid || r.recipientId == uid) ||
  db.notifications.any (fun r => r.userId == uid || r.actorId == uid) ||
  db.userSettings.any (fun r => r.userId == uid) ||
  db.userRoles.any (fun r => r.userId == uid) ||
  db.verificationTokens.any (fun r => r.userId == uid) ||
  db.sessions.any (fun r => r.userId == uid) ||
  db.userMedias.any (fun r => r.userId == uid) ||
  db.userActivityLogs.any (fun r => r.userId == uid) ||
  db.reports.any (fun r => r.reporterId == uid)

def postIn (l : List PostRow) (pid : Nat) : Bool := l.any (fun p => p.id == pid)
def commentIn (l : List CommentRow) (cid : Nat) : Bool := l.any (fun c => c.id == cid)
def storyIn (l : List StoryRow) (sid : Nat) : Bool := l.any (fun s => s.id == sid)
def convIn (l : List ConversationRow) (cid : Nat) : Bool := l.any (fun c => c.id == cid)

/-- Every non-user parent foreign key points at an existing parent row:
post tags, comments, likes and saved posts at a post; comment likes and
comment author snapshots at a comment; story views/likes/highlights at a
story; messages at a conversation.  A "seeded" state of an FK-enforcing
store satisfies this. -/
def parentsOK (db : DB) : Bool :=
  db.postTags.all (fun t => postIn db.posts t.postId) &&
  db.comments.all (fun c => postIn db.posts c.postId) &&
  db.commentLikes.all (fun cl => commentIn db.comments cl.commentId) &&
  db.commentAuthorInfos.all (fun ca => commentIn db.comments ca.commentId) &&
  db.likes.all (fun l => postIn db.posts l.postId) &&
  db.savedPosts.all (fun s => postIn db.posts s.postId) &&
  db.storyViews.all (fun v => storyIn db.stories v.storyId) &&
  db.storyLikes.all (fun sl => storyIn db.stories sl.storyId) &&
  db.storyHighlights.all (fun sh => storyIn db.stories sh.storyId) &&
  db.messages.all (fun m => convIn db.conversations m.conversationId)

/-! ### Generic access to one family -/

/-- Access to one entity family of the database: its row list, the update
of that list, and the foreign-key check `referencedBy db r` — whether some
row elsewhere in `db` holds a foreign key to `r`.

Modelled from the spec: the Prisma schema is not part of the repository
source; which columns are foreign keys into which family is taken from the
data model of §3, and the store is taken to enforce them with restrict
semantics (§7 classifies a foreign-key constraint failure during a purge
step as `ReferentialOrderingViolation`, so the store rejects, rather than
cascades, a delete of a still-referenced row). -/
structure FamOps (ρ : Type) where
  get : DB → List ρ
  set : DB → List ρ → DB
  referencedBy : DB → ρ → Bool

def postOps : FamOps PostRow where
  get := DB.posts
  set := fun db l => { db with posts := l }
  referencedBy := fun db p =>
    db.postTags.any (fun t => t.postId == p.id) ||
    db.comments.any (fun c => c.postId == p.id) ||
    db.likes.any (fun l => l.postId == p.id) ||
    db.savedPosts.any (fun s => s.postId == p.id)

def postTagOps : FamOps PostTagRow where
  get := DB.postTags
  set := fun db l => { db with postTags := l }
  referencedBy := fun _ _ => false

def commentOps : FamOps CommentRow where
  get := DB.comments
  set := fun db l => { db with comments := l }
  referencedBy := fun db c =>
    db.commentLikes.any (fun cl => cl.commentId == c.id) ||
    db.commentAuthorInfos.any (fun ca => ca.commentId == c.id)

def commentLikeOps : FamOps CommentLikeRow where
  get := DB.commentLikes
  set := fun db l => { db with commentLikes := l }
  referencedBy := fun _ _ => false

def commentAuthorInfoOps : FamOps CommentAuthorInfoRow where
  get := DB.commentAuthorInfos
  set := fun db l => { db with commentAuthorInfos := l }
  referencedBy := fun _ _ => false

def likeOps : FamOps LikeRow where
  get := DB.likes
  set := fun db l => { db with likes := l }
  referencedBy := fun _ _ => false

def savedPostOps : FamOps SavedPostRow where
  get := DB.savedPosts
  set := fun db l => { db with savedPosts := l }
  referencedBy := fun _ _ => false

def storyOps : FamOps StoryRow where
  get := DB.stories
  set := fun db l => { db with stories := l }
  referencedBy := fun db s =>
    db.storyViews.any (fun v => v.storyId == s.id) ||
    db.storyLikes.any (fun sl => sl.storyId == s.id) ||
    db.storyHighlights.any (fun sh => sh.storyId == s.id)

def storyViewOps : FamOps StoryViewRow where
  get := DB.storyViews
  set := fun db l => { db with storyViews := l }
  referencedBy := fun _ _ => false

def storyLikeOps : FamOps StoryLikeRow where
  get := DB.storyLikes
  set := fun db l => { db with storyLikes := l }
  referencedBy := fun _ _ => false

def storyHighlightOps : FamOps StoryHighlightRow where
  get := DB.storyHighlights
  set := fun db l => { db with storyHighlights := l }
  referencedBy := fun _ _ => false

def followOps : FamOps FollowRow where
  get := DB.follows
  set := fun db l => { db with follows := l }
  referencedBy := fun _ _ => false

def followRequestOps : FamOps FollowRequestRow where
  get := DB.followRequests
  set := fun db l => { db with followRequests := l }
  referencedBy := fun _ _ => false

def conversationOps : FamOps ConversationRow where
  get := DB.conversations
  set := fun db l => { db with conversations := l }
  referencedBy := fun db c =>
    db.messages.any (fun m => m.conversationId == c.id)

def messageOps : FamOps MessageRow where
  get := DB.messages
  set := fun db l => { db with messages := l }
  referencedBy := fun _ _ => false

def notificationOps : FamOps NotificationRow where
  get := DB.notifications
  set := fun db l => { db with notifications := l }
  referencedBy := fun _ _ => false

def userSettingsOps : FamOps UserSettingsRow where
  get := DB.userSettings
  set := fun db l => { db with userSettings := l }
  referencedBy := fun _ _ => false

def userRoleOps : FamOps UserRoleRow where
  get := DB.userRoles
  set := fun db l => { db with userRoles := l }
  referencedBy := fun _ _ => false

def verificationTokenOps : FamOps VerificationTokenRow where
  get := DB.verificationTokens
  set := fun db l => { db with verificationTokens := l }
  referencedBy := fun _ _ => false

def sessionOps : FamOps SessionRow where
  get := DB.sessions
  set := fun db l => { db with sessions := l }
  referencedBy := fun _ _ => false

def userMediaOps : FamOps UserMediaRow where
  get := DB.userMedias
  set := fun db l => { db with userMedias := l }
  referencedBy := fun _ _ => false

def userActivityLogOps : FamOps UserActivityLogRow where
  get := DB.userActivityLogs
  set := fun db l => { db with userActivityLogs := l }
  referencedBy := fun _ _ => false

def reportOps : FamOps ReportRow where
  get := DB.reports
  set := fun db l => { db with reports := l }
  referencedBy := fun _ _ => false

/-! ### The batched table purger (`deleteInBatches`) -/

/-- Remove up to `n` rows satisfying `cond` from a row list, returning the
kept and the removed rows.  This is one `deleteMany({ where, take })`
call's effect on the table. -/
def deleteTake (cond : ρ → Bool) : Nat → List ρ → List ρ × List ρ
  | _, [] => ([], [])
  | 0, rows => (rows, [])
  | n + 1, r :: rs =>
    if cond r then
      let (k, d) := deleteTake cond n rs
      (k, r :: d)
    else
      let (k, d) := deleteTake cond (n + 1) rs
      (r :: k, d)

theorem deleteTake_sublist (cond : ρ → Bool) :
    ∀ n rows, (deleteTake cond n rows).1.Sublist rows := by
  intro n rows
  induction rows generalizing n with
  | nil => simp [deleteTake]
  | cons r rs ih =>
    match n with
    | 0 => simp [deleteTake]
    | n + 1 =>
      simp only [deleteTake]
      split
      · exact (ih n).cons r
      · exact (ih (n + 1)).cons₂ r

theorem deleteTake_mem (cond : ρ → Bool) :
    ∀ n rows x, x ∈ rows →
      x ∈ (deleteTake cond n rows).1 ∨ x ∈ (deleteTake cond n rows).2 := by
  intro n rows
  induction rows generalizing n with
  | nil => simp
  | cons r rs ih =>
    intro x hx
    match n with
    | 0 => simp [deleteTake, hx]
    | n + 1 =>
      simp only [deleteTake]
      rcases List.mem_cons.mp hx with h | h
      · subst h
        split <;> simp
      · split
        · rcases ih n x h with h' | h' <;> simp [h']
        · rcases ih (n + 1) x h with h' | h' <;> simp [h']

/-- One `deleteMany({ where: cond, take })` call on family `F`: remove up
to `take` matching rows and fail if a row that remains anywhere in the
database still references a removed row.

Modelled from the spec: the underlying store (Prisma engine plus schema,
not in the repository source) enforces foreign keys; a violated constraint
rejects the delete (§7 `ReferentialOrderingViolation`). -/
def deleteManyTake (F : FamOps ρ) (cond : ρ → Bool) (take : Nat) (db : DB) :
    Except String (Nat × DB) :=
  let (kept, removed) := deleteTake cond take (F.get db)
  let db' := F.set db kept
  if removed.any (fun r => F.referencedBy db' r) then
    .error "Foreign key constraint violated"
  else
    .ok (removed.length, db')

theorem deleteManyTake_ok (F : FamOps ρ) (cond : ρ → Bool) (take : Nat) (db : DB)
    (c : Nat) (db' : DB) (h : deleteManyTake F cond take db = .ok (c, db')) :
    ∃ kept removed, deleteTake cond take (F.get db) = (kept, removed) ∧
      db' = F.set db kept ∧ c = removed.length ∧
      ∀ r ∈ removed, F.referencedBy (F.set db kept) r = false := by
  unfold deleteManyTake at h
  rcases hd : deleteTake cond take (F.get db) with ⟨kept, removed⟩
  rw [hd] at h
  simp only at h
  split at h
  · exact absurd h (by simp)
  · rename_i hany
    simp only [Except.ok.injEq, Prod.mk.injEq] at h
    refine ⟨kept, removed, rfl, h.2.symm, h.1.symm, ?_⟩
    intro r hr
    cases hb : F.referencedBy (F.set db kept) r
    · rfl
    · exact absurd (List.any_eq_true.mpr ⟨r, hr, hb⟩) hany

/-- The loop of `deleteInBatches`, generic in the per-call delete operation
`dm take state = ok (count, state')` (in the source, the awaited
`tx[model].deleteMany({ where, take: batchSize })`), with explicit fuel.
Accumulates the total deleted count and the number of delete calls issued,
and keeps looping exactly while a call deletes `batchSize` rows.  The
inter-batch `setTimeout` pause affects no state and is not modelled. -/
def deleteInBatchesGo (dm : Nat → σ → Except String (Nat × σ)) (batchSize : Nat) :
    Nat → σ → Option (Except String ((Nat × Nat) × σ))
  | 0, _ => none
  | fuel + 1, s =>
    match dm batchSize s with
    | .error e => some (.error e)
    | .ok (c, s') =>
      if c = batchSize then
        (deleteInBatchesGo dm batchSize fuel s').map
          (fun r => r.map (fun p => ((c + p.1.1, p.1.2 + 1), p.2)))
      else
        some (.ok ((c, 1), s'))

/-- The delete operation of an abstract table holding `n` matching rows:
one call with `take` deletes `min n take` of them. -/
def countingDeleteMany (take n : Nat) : Except String (Nat × Nat) :=
  .ok (min n take, n - min n take)

/-- `deleteInBatches` on family `F` of the database: loop `deleteMany`
calls of up to `batchSize` rows until a call deletes fewer than
`batchSize`.  The fuel `(F.get db).length + 1` bounds the number of calls;
the where-condition is re-evaluated against the current state on every
call, as Prisma does for relation filters.  The source's check that the
model name exists on the client is static here and not modelled. -/
def deleteInBatches (F : FamOps ρ) (cond : DB → ρ → Bool) (batchSize : Nat)
    (db : DB) : Except String (Nat × DB) :=
  match deleteInBatchesGo (fun t s => deleteManyTake F (cond s) t s) batchSize
      ((F.get db).length + 1) db with
  | some (.ok ((total, _), db')) => .ok (total, db')
  | some (.error e) => .error e
  | none => .error "batch fuel exhausted"

/-- Success of the loop preserves any property that each single
`deleteMany` call preserves. -/
theorem deleteInBatchesGo_preserves (dm : Nat → σ → Except String (Nat × σ))
    (bs : Nat) (P : σ → Prop)
    (hdm : ∀ t s c s', dm t s = .ok (c, s') → P s → P s') :
    ∀ fuel s r s', deleteInBatchesGo dm bs fuel s = some (.ok (r, s')) → P s → P s' := by
  intro fuel
  induction fuel with
  | zero => intro s r s' h; simp [deleteInBatchesGo] at h
  | succ fuel ih =>
    intro s r s' h hp
    unfold deleteInBatchesGo at h
    rcases hc : dm bs s with e | ⟨c, s1⟩ <;> rw [hc] at h
    · simp at h
    · simp only at h
      split at h
      · rcases hg : deleteInBatchesGo dm bs fuel s1 with _ | r2 <;> rw [hg] at h
        · simp at h
        · rcases r2 with e | ⟨r3, s3⟩
          · simp [Except.map] at h
          · simp only [Option.map_some', Except.map, Option.some.injEq,
              Except.ok.injEq, Prod.mk.injEq] at h
            obtain ⟨_, hs⟩ := h
            subst hs
            exact ih s1 r3 s3 hg (hdm bs s c s1 hc hp)
      · simp only [Option.some.injEq, Except.ok.injEq, Prod.mk.injEq] at h
        obtain ⟨_, hs⟩ := h
        subst hs
        exact hdm bs s c s1 hc hp

theorem deleteInBatches_ok (F : FamOps ρ) (cond : DB → ρ → Bool) (bs : Nat)
    (db : DB) (n : Nat) (db' : DB) (h : deleteInBatches F cond bs db = .ok (n, db')) :
    ∃ k, deleteInBatchesGo (fun t s => deleteManyTake F (cond s) t s) bs
      ((F.get db).length + 1) db = some (.ok ((n, k), db')) := by
  unfold deleteInBatches at h
  rcases hg : deleteInBatchesGo (fun t s => deleteManyTake F (cond s) t s) bs
      ((F.get db).length + 1) db with _ | r <;> rw [hg] at h
  · simp at h
  · rcases r with e | ⟨⟨t, k⟩, db2⟩
    · simp at h
    · simp only [Except.ok.injEq, Prod.mk.injEq] at h
      exact ⟨k, by rw [h.1, h.2]⟩

/-- Success of `deleteInBatches` on a family preserves any property each
single FK-checked `deleteMany` call preserves. -/
theorem deleteInBatches_preserves (F : FamOps ρ) (cond : DB → ρ → Bool) (bs : Nat)
    (P : DB → Prop)
    (hdm : ∀ c t db cnt db', deleteManyTake F c t db = .ok (cnt, db') → P db → P db')
    (db : DB) (n : Nat) (db' : DB) (h : deleteInBatches F cond bs db = .ok (n, db'))
    (hp : P db) : P db' := by
  obtain ⟨k, hg⟩ := deleteInBatches_ok F cond bs db n db' h
  exact deleteInBatchesGo_preserves _ bs P
    (fun t s c s' hc => hdm (cond s) t s c s' hc) _ db (n, k) db' hg hp

/-- The batched purger loop on the abstract counting table. -/
def countBatches (b fuel n : Nat) : Option (Except String ((Nat × Nat) × Nat)) :=
  deleteInBatchesGo countingDeleteMany b fuel n

theorem countBatches_succ (b fuel n : Nat) :
    countBatches b (fuel + 1) n =
      (if min n b = b then
        (countBatches b fuel (n - min n b)).map
          (fun r => r.map (fun p => ((min n b + p.1.1, p.1.2 + 1), p.2)))
      else some (.ok ((min n b, 1), n - min n b))) := rfl

/-- On the abstract table with `n` matching rows and batch size `b ≥ 1`,
the loop finishes within fuel `> n`, deletes all `n` rows and issues
exactly `n / b + 1` delete calls (the final, short call included). -/
theorem countBatches_complete (b : Nat) (hb : 1 ≤ b) :
    ∀ fuel n, n < fuel → countBatches b fuel n = some (.ok ((n, n / b + 1), 0)) := by
  intro fuel
  induction fuel with
  | zero => omega
  | succ fuel ih =>
    intro n hn
    rw [countBatches_succ]
    by_cases hcase : n < b
    · have hmin : min n b = n := Nat.min_eq_left (Nat.le_of_lt hcase)
      rw [hmin, if_neg (by omega)]
      have h0 : n / b = 0 := Nat.div_eq_of_lt hcase
      rw [h0, Nat.sub_self]
    · have hble : b ≤ n := Nat.le_of_not_lt hcase
      have hmin : min n b = b := Nat.min_eq_right hble
      rw [hmin, if_pos rfl, ih (n - b) (by omega)]
      have hdiv : n / b = (n - b) / b + 1 := Nat.div_eq_sub_div (by omega) hble
      simp only [Option.map_some', Except.map, Option.some.injEq,
        Except.ok.injEq, Prod.mk.injEq]
      exact ⟨⟨by omega, by rw [hdiv]⟩, trivial⟩

/-- With batch size `0`, every call deletes `0 = batchSize` rows, so the
loop guard never becomes false: no amount of fuel completes it. -/
theorem countBatches_zero_diverges : ∀ fuel n, countBatches 0 fuel n = none := by
  intro fuel
  induction fuel with
  | zero => intro n; rfl
  | succ fuel ih =>
    intro n
    rw [countBatches_succ]
    simp only [Nat.min_zero, if_true, eq_self_iff_true, ih (n - 0), Option.map_none']

/-! ### Preflight validator, safety-net soft delete, cascade orchestrator -/

/-- `BATCH_SIZE` of the source. -/
def BATCH_SIZE : Nat := 1000

def notFoundMsg (userId : Nat) : String :=
  "User with id " ++ natStr userId ++ " not found"

def adminMsg : String :=
  "Cannot delete admin users through this method. Use admin-specific deletion process."

/-- `validateUserDeletion`: loads the user, fails when absent, fails when
the user's role is `ADMIN`; a banned account is only logged, not rejected.
The `_count` summary it loads is used for logging only and has no
semantic effect. -/
def validateUserDeletion (db : DB) (userId : Nat) : Except String Unit :=
  match db.users.find? (fun u => u.id == userId) with
  | none => .error (notFoundMsg userId)
  | some _ =>
    if (db.userRoles.find? (fun r => r.userId == userId)).any
        (fun r => r.role == "ADMIN") then
      .error adminMsg
    else
      .ok ()

def deletedEmail (now : Nat) : String :=
  "deleted-" ++ natStr now ++ "@deleted.invalid"

def deletedUsername (now : Nat) : String :=
  "deleted_" ++ natStr now

/-- `softDeleteUser`: the in-transaction safety-net update.  The
`Date.now()` / `new Date()` calls it makes are modelled by the single
instant `now`.  Prisma's `update` on a missing unique row rejects with
"record not found" (P2025). -/
def softDeleteUser (db : DB) (userId : Nat) (now : Nat) : Except String DB :=
  if db.users.any (fun u => u.id == userId) then
    .ok { db with users := db.users.map (fun u =>
      if u.id == userId then
        { u with
          isActive := false
          isBanned := true
          banReason := some "Account deletion in progress"
          email := deletedEmail now
          username := deletedUsername now
          updatedAt := now }
      else u) }
  else
    .error "Record to update not found"

/-- One observable write issued inside the erasure transaction. -/
inductive Event where
  | softDelete : Event
  | purge : String → Event
  | userDelete : Event
deriving DecidableEq

/-- State threaded through the transaction body: the database, the
`deletedCounts` record, and the trace of writes issued so far.  The trace
models the observable order of operations (the source's per-step
`console.info` and the issued statements); it is not rolled back. -/
structure TxState where
  db : DB
  counts : List (String × Nat)
  trace : List Event
deriving DecidableEq

/-- A transaction step: returns the error of the first failing statement,
if any, together with the state reached (meaningful on success; on error
only its trace portion is observable, since the transaction rolls back). -/
def stepThen (r : Option String × TxState)
    (f : TxState → Option String × TxState) : Option String × TxState :=
  match r with
  | (some e, st) => (some e, st)
  | (none, st) => f st

/-- One per-family purge of the cascade orchestrator: record the issued
purge in the trace, run `deleteInBatches` for the family with the source's
where-condition, and store the removed count under the source's
`deletedCounts` key. -/
def purgeStep (key : String) (ev : String) (F : FamOps ρ) (cond : DB → ρ → Bool)
    (st : TxState) : Option String × TxState :=
  let tr := st.trace ++ [Event.purge ev]
  match deleteInBatches F cond BATCH_SIZE st.db with
  | .error e => (some e, { st with trace := tr })
  | .ok (n, db') => (none, { db := db', counts := st.counts ++ [(key, n)], trace := tr })

/-- The final `tx.user.delete({ where: { id: userId } })` followed by
`deletedCounts.user = 1`.  Prisma's `delete` on a missing row rejects with
"record not found" (P2025); deleting a still-referenced user row rejects
with a foreign-key violation (P2003), modelled from the spec as for
`deleteManyTake`. -/
def userDeleteStep (userId : Nat) (st : TxState) : Option String × TxState :=
  let tr := st.trace ++ [Event.userDelete]
  if st.db.users.any (fun u => u.id == userId) then
    let db' := { st.db with users := st.db.users.filter (fun u => !(u.id == userId)) }
    if dbRefsUser db' userId then
      (some "Foreign key constraint violated", { st with trace := tr })
    else
      (none, { db := db', counts := st.counts ++ [("user", 1)], trace := tr })
  else
    (some "Record to delete does not exist", { st with trace := tr })

/-- Step 2 of the transaction body: the optional safety-net soft delete. -/
def softDeleteStep (userId now : Nat) (st : TxState) : Option String × TxState :=
  let tr := st.trace ++ [Event.softDelete]
  match softDeleteUser st.db userId now with
  | .error e => (some e, { st with trace := tr })
  | .ok db' => (none, { db := db', counts := st.counts, trace := tr })

/-- The per-family purges of step 3 of `deleteUserAndData`, in source
order, each with the source's `deletedCounts` key, Prisma model name and
where-condition, followed by the final user-row delete (step 3.11). -/
def txSteps (userId : Nat) : List (TxState → Option String × TxState) :=
  [ purgeStep "storyViews" "storyView" storyViewOps
      (fun db r => r.viewerId == userId ||
        db.stories.any (fun s => s.id == r.storyId && s.userId == userId)),
    purgeStep "storyLikes" "storyLike" storyLikeOps
      (fun db r => r.userId == userId ||
        db.stories.any (fun s => s.id == r.storyId && s.userId == userId)),
    purgeStep "storyHighlights" "storyHighlight" storyHighlightOps
      (fun _ r => r.userId == userId),
    purgeStep "stories" "story" storyOps (fun _ r => r.userId == userId),
    purgeStep "commentLikes" "commentLike" commentLikeOps
      (fun db r => r.userId == userId ||
        db.comments.any (fun c => c.id == r.commentId && c.authorId == userId)),
    purgeStep "commentAuthorInfo" "commentAuthorInfo" commentAuthorInfoOps
      (fun _ r => r.authorId == userId),
    purgeStep "comments" "comment" commentOps (fun _ r => r.authorId == userId),
    purgeStep "messages" "message" messageOps
      (fun _ r => r.senderId == userId || r.recipientId == userId),
    purgeStep "conversations" "conversation" conversationOps
      (fun _ r => r.user1Id == userId || r.user2Id == userId),
    purgeStep "likes" "like" likeOps (fun _ r => r.userId == userId),
    purgeStep "savedPosts" "savedPost" savedPostOps (fun _ r => r.userId == userId),
    purgeStep "followRequests" "followRequest" followRequestOps
      (fun _ r => r.senderId == userId || r.receiverId == userId),
    purgeStep "follows" "follow" followOps
      (fun _ r => r.followerId == userId || r.followingId == userId),
    purgeStep "notifications" "notification" notificationOps
      (fun _ r => r.userId == userId || r.actorId == userId),
    purgeStep "userMedia" "userMedia" userMediaOps (fun _ r => r.userId == userId),
    purgeStep "userActivityLogs" "userActivityLog" userActivityLogOps
      (fun _ r => r.userId == userId),
    purgeStep "userSettings" "userSettings" userSettingsOps
      (fun _ r => r.userId == userId),
    purgeStep "userRoles" "userRole" userRoleOps (fun _ r => r.userId == userId),
    purgeStep "verificationTokens" "verificationToken" verificationTokenOps
      (fun _ r => r.userId == userId),
    purgeStep "sessions" "session" sessionOps (fun _ r => r.userId == userId),
    purgeStep "postTags" "postTag" postTagOps
      (fun db r => db.posts.any (fun p => p.id == r.postId && p.authorId == userId)),
    purgeStep "posts" "post" postOps (fun _ r => r.authorId == userId),
    purgeStep "reports" "report" reportOps (fun _ r => r.reporterId == userId),
    userDeleteStep userId ]

def runSteps : List (TxState → Option String × TxState) → TxState →
    Option String × TxState
  | [], st => (none, st)
  | f :: fs, st =>
    match f st with
    | (some e, st') => (some e, st')
    | (none, st') => runSteps fs st'

/-- The callback passed to `prisma.$transaction`: optional soft delete,
then the ordered cascade of purges, then the user-row delete. -/
def txBody (db : DB) (userId : Nat) (enableSoftDelete : Bool) (tSoft : Nat) :
    Option String × TxState :=
  let st0 : TxState := ⟨db, [], []⟩
  stepThen
    (if enableSoftDelete then softDeleteStep userId tSoft st0 else (none, st0))
    (runSteps (txSteps userId))

/-- The record `deleteUserAndData` resolves with. -/
structure DeleteResult where
  success : Bool
  deletedCounts : List (String × Nat)
  duration : Nat
deriving DecidableEq

def wrapMsg (userId : Nat) (msg : String) : String :=
  "Failed to delete user " ++ natStr userId ++ ": " ++ msg

/-- `deleteUserAndData`: validate, then run the transaction body; commit
its state on success, roll the database back on any error and re-raise the
error wrapped with the user id.  `t0` is `Date.now()` at entry, `tSoft`
the instant of the soft-delete write, `tEnd` `Date.now()` at completion.
The rollback on error is `prisma.$transaction`'s contract, modelled from
the spec (atomicity invariant, §3); the error classification in the catch
block is logging only and the catch always re-raises the wrapped error.
Returns the result or error, the database afterwards, and the trace of
writes the transaction issued (observable mid-transaction, hence kept on
error too). -/
def deleteUserAndData (db : DB) (userId : Nat) (enableSoftDelete : Bool)
    (t0 tSoft tEnd : Nat) : Except String DeleteResult × DB × List Event :=
  match validateUserDeletion db userId with
  | .error e => (.error (wrapMsg userId e), db, [])
  | .ok () =>
    match txBody db userId enableSoftDelete tSoft with
    | (some e, st) => (.error (wrapMsg userId e), db, st.trace)
    | (none, st) =>
      (.ok { success := true, deletedCounts := st.counts, duration := tEnd - t0 },
        st.db, st.trace)

/-! ### Preview reporter -/

/-- The per-family count queries `previewUserDeletion` awaits, in source
order. -/
inductive PQ where
  | user | posts | comments | likes | savedPosts | follows | followRequests
  | stories | conversations | messages | notifications
deriving DecidableEq

/-- `previewUserDeletion`, generic in the store's response `q` to each
count query (each `await prisma.<model>.count(...)`): the queries run
sequentially inside one try/catch whose catch logs and re-raises, so the
first rejected query aborts the whole call. -/
def previewUserDeletion (q : PQ → Except String Nat) :
    Except String (List (String × Nat)) := do
  let user ← q .user
  let posts ← q .posts
  let comments ← q .comments
  let likes ← q .likes
  let savedPosts ← q .savedPosts
  let follows ← q .follows
  let followRequests ← q .followRequests
  let stories ← q .stories
  let conversations ← q .conversations
  let messages ← q .messages
  let notifications ← q .notifications
  return [("user", user), ("posts", posts), ("comments", comments),
    ("likes", likes), ("savedPosts", savedPosts), ("follows", follows),
    ("followRequests", followRequests), ("stories", stories),
    ("conversations", conversations), ("messages", messages),
    ("notifications", notifications)]

/-- The store's answer to each preview count query on database `db`, with
the where-filters of the source. -/
def qOfDb (db : DB) (userId : Nat) : PQ → Except String Nat
  | .user => .ok (db.users.countP (fun u => u.id == userId))
  | .posts => .ok (db.posts.countP (fun p => p.authorId == userId))
  | .comments => .ok (db.comments.countP (fun c => c.authorId == userId))
  | .likes => .ok (db.likes.countP (fun l => l.userId == userId))
  | .savedPosts => .ok (db.savedPosts.countP (fun s => s.userId == userId))
  | .follows => .ok (db.follows.countP
      (fun f => f.followerId == userId || f.followingId == userId))
  | .followRequests => .ok (db.followRequests.countP
      (fun f => f.senderId == userId || f.receiverId == userId))
  | .stories => .ok (db.stories.countP (fun s => s.userId == userId))
  | .conversations => .ok (db.conversations.countP
      (fun c => c.user1Id == userId || c.user2Id == userId))
  | .messages => .ok (db.messages.countP
      (fun m => m.senderId == userId || m.recipientId == userId))
  | .notifications => .ok (db.notifications.countP
      (fun n => n.userId == userId || n.actorId == userId))

/-- The count queries of the preview, in the order the source awaits
them. -/
def previewOrder : List PQ :=
  [.user, .posts, .comments, .likes, .savedPosts, .follows, .followRequests,
   .stories, .conversations, .messages, .notifications]

/-! ### Trace predicates for the ordering claims -/

/-- The purge events of a trace, in order, by Prisma model name. -/
def purgeNames : List Event → List String
  | [] => []
  | Event.purge n :: es => n :: purgeNames es
  | _ :: es => purgeNames es

/-- `a` is purged strictly before `b` in the list of purges. -/
def beforeIn (l : List String) (a b : String) : Bool :=
  match l.findIdx? (fun x => x == a), l.findIdx? (fun x => x == b) with
  | some i, some j => decide (i < j)
  | _, _ => false

/-- The child-to-parent foreign-key edges among the dependent families
(spec §3): each child family must be purged before its parent. -/
def fkEdges : List (String × String) :=
  [("storyView", "story"), ("storyLike", "story"), ("storyHighlight", "story"),
   ("commentLike", "comment"), ("commentAuthorInfo", "comment"),
   ("message", "conversation"),
   ("postTag", "post"), ("comment", "post"), ("like", "post"),
   ("savedPost", "post")]

/-- All 23 dependent-family model names. -/
def allFamilies : List String :=
  ["storyView", "storyLike", "storyHighlight", "story", "commentLike",
   "commentAuthorInfo", "comment", "message", "conversation", "like",
   "savedPost", "followRequest", "follow", "notification", "userMedia",
   "userActivityLog", "userSettings", "userRole", "verificationToken",
   "session", "postTag", "post", "report"]

/-- The trace is in topological, leaves-first dependency order: every
family is purged, every child family is purged before its parent, and the
user-row delete comes last, after all purges. -/
def topoOK (tr : List Event) : Bool :=
  let ps := purgeNames tr
  fkEdges.all (fun e => beforeIn ps e.1 e.2) &&
  allFamilies.all (fun f => ps.contains f) &&
  (tr.getLast? == some Event.userDelete)

/-- The account/session/audit families of the claim. -/
def accountFams : List String :=
  ["userSettings", "userRole", "verificationToken", "session", "userMedia",
   "userActivityLog", "report"]

/-- The claimed placement: the account/session/audit families occupy the
final purge slots, immediately before the user-row delete. -/
def accountFamsLast (tr : List Event) : Bool :=
  let ps := purgeNames tr
  (ps.drop (ps.length - 7)).all (fun n => accountFams.contains n)

/-- The ordering property exactly as the claim states it. -/
def claimedOrder (tr : List Event) : Bool :=
  topoOK tr && accountFamsLast tr

/-- The write trace of a successful guarded (`sd = true`) or unguarded
erasure run. -/
def expectedTrace (sd : Bool) : List Event :=
  (if sd then [Event.softDelete] else []) ++
    allFamilies.map Event.purge ++ [Event.userDelete]

/-! ### Preservation of referential integrity by the purge steps

For claim C1: each successful FK-checked `deleteMany` call keeps every
remaining parent foreign key pointing at an existing row, hence so does
every successful `deleteInBatches` and the whole cascade. -/

theorem sublist_deleteTake (cond : ρ → Bool) (t : Nat) (l kept removed : List ρ)
    (hd : deleteTake cond t l = (kept, removed)) : kept.Sublist l := by
  have := deleteTake_sublist cond t l
  rw [hd] at this
  exact this

theorem mem_deleteTake_split (cond : ρ → Bool) (t : Nat) (l kept removed : List ρ)
    (hd : deleteTake cond t l = (kept, removed)) :
    ∀ x ∈ l, x ∈ kept ∨ x ∈ removed := by
  intro x hx
  have := deleteTake_mem cond t l x hx
  rw [hd] at this
  exact this

theorem parentsOK_iff (db : DB) : parentsOK db = true ↔
    ((∀ x ∈ db.postTags, postIn db.posts x.postId = true) ∧
     (∀ x ∈ db.comments, postIn db.posts x.postId = true) ∧
     (∀ x ∈ db.commentLikes, commentIn db.comments x.commentId = true) ∧
     (∀ x ∈ db.commentAuthorInfos, commentIn db.comments x.commentId = true) ∧
     (∀ x ∈ db.likes, postIn db.posts x.postId = true) ∧
     (∀ x ∈ db.savedPosts, postIn db.posts x.postId = true) ∧
     (∀ x ∈ db.storyViews, storyIn db.stories x.storyId = true) ∧
     (∀ x ∈ db.storyLikes, storyIn db.stories x.storyId = true) ∧
     (∀ x ∈ db.storyHighlights, storyIn db.stories x.storyId = true) ∧
     (∀ x ∈ db.messages, convIn db.conversations x.conversationId = true)) := by
  simp only [parentsOK, Bool.and_eq_true, List.all_eq_true]
  tauto

theorem dmt_storyView_parentsOK (cond : StoryViewRow → Bool) (t : Nat) (db : DB)
    (c : Nat) (db' : DB) (h : deleteManyTake storyViewOps cond t db = .ok (c, db'))
    (hp : parentsOK db = true) : parentsOK db' = true := by
  obtain ⟨kept, removed, hd, hdb, -, -⟩ := deleteManyTake_ok _ _ _ _ _ _ h
  subst hdb
  have hsub : kept.Sublist db.storyViews := sublist_deleteTake _ _ _ _ _ hd
  rw [parentsOK_iff] at hp ⊢
  obtain ⟨h1, h2, h3, h4, h5, h6, h7, h8, h9, h10⟩ := hp
  exact ⟨h1, h2, h3, h4, h5, h6, fun v hv => h7 v (hsub.subset hv), h8, h9, h10⟩

theorem dmt_story_parentsOK (cond : StoryRow → Bool) (t : Nat) (db : DB)
    (c : Nat) (db' : DB) (h : deleteManyTake storyOps cond t db = .ok (c, db'))
    (hp : parentsOK db = true) : parentsOK db' = true := by
  obtain ⟨kept, removed, hd, hdb, -, hchk⟩ := deleteManyTake_ok _ _ _ _ _ _ h
  subst hdb
  have hmem := mem_deleteTake_split _ _ _ _ _ hd
  rw [parentsOK_iff] at hp ⊢
  obtain ⟨h1, h2, h3, h4, h5, h6, h7, h8, h9, h10⟩ := hp
  have key : ∀ sid, storyIn db.stories sid = true →
      ((∃ w ∈ db.storyViews, w.storyId = sid) ∨
       (∃ w ∈ db.storyLikes, w.storyId = sid) ∨
       (∃ w ∈ db.storyHighlights, w.storyId = sid)) →
      storyIn kept sid = true := by
    intro sid hold hw
    rw [storyIn, List.any_eq_true] at hold
    obtain ⟨s, hs, hsid⟩ := hold
    rw [beq_iff_eq] at hsid
    rcases hmem s hs with hk | hr
    · exact List.any_eq_true.mpr ⟨s, hk, by rw [beq_iff_eq, hsid]⟩
    · exfalso
      have href := hchk s hr
      simp only [storyOps, Bool.or_eq_false_iff, List.any_eq_false] at href
      rcases hw with ⟨w, hwm, hwid⟩ | ⟨w, hwm, hwid⟩ | ⟨w, hwm, hwid⟩
      · exact href.1.1 w hwm (by rw [beq_iff_eq, hwid, hsid])
      · exact href.1.2 w hwm (by rw [beq_iff_eq, hwid, hsid])
      · exact href.2 w hwm (by rw [beq_iff_eq, hwid, hsid])
  refine ⟨h1, h2, h3, h4, h5, h6, ?_, ?_, ?_, h10⟩
  · exact fun v hv => key v.storyId (h7 v hv) (Or.inl ⟨v, hv, rfl⟩)
  · exact fun v hv => key v.storyId (h8 v hv) (Or.inr (Or.inl ⟨v, hv, rfl⟩))
  · exact fun v hv => key v.storyId (h9 v hv) (Or.inr (Or.inr ⟨v, hv, rfl⟩))

theorem dmt_storyLike_parentsOK (cond : StoryLikeRow → Bool) (t : Nat) (db : DB)
    (c : Nat) (db' : DB) (h : deleteManyTake storyLikeOps cond t db = .ok (c, db'))
    (hp : parentsOK db = true) : parentsOK db' = true := by
  obtain ⟨kept, removed, hd, hdb, -, -⟩ := deleteManyTake_ok _ _ _ _ _ _ h
  subst hdb
  have hsub : kept.Sublist db.storyLikes := sublist_deleteTake _ _ _ _ _ hd
  rw [parentsOK_iff] at hp ⊢
  obtain ⟨h1, h2, h3, h4, h5, h6, h7, h8, h9, h10⟩ := hp
  exact ⟨h1, h2, h3, h4, h5, h6, h7, fun v hv => h8 v (hsub.subset hv), h9, h10⟩

theorem dmt_storyHighlight_parentsOK (cond : StoryHighlightRow → Bool) (t : Nat)
    (db : DB) (c : Nat) (db' : DB)
    (h : deleteManyTake storyHighlightOps cond t db = .ok (c, db'))
    (hp : parentsOK db = true) : parentsOK db' = true := by
  obtain ⟨kept, removed, hd, hdb, -, -⟩ := deleteManyTake_ok _ _ _ _ _ _ h
  subst hdb
  have hsub : kept.Sublist db.storyHighlights := sublist_deleteTake _ _ _ _ _ hd
  rw [parentsOK_iff] at hp ⊢
  obtain ⟨h1, h2, h3, h4, h5, h6, h7, h8, h9, h10⟩ := hp
  exact ⟨h1, h2, h3, h4, h5, h6, h7, h8, fun v hv => h9 v (hsub.subset hv), h10⟩

theorem dmt_commentLike_parentsOK (cond : CommentLikeRow → Bool) (t : Nat)
    (db : DB) (c : Nat) (db' : DB)
    (h : deleteManyTake commentLikeOps cond t db = .ok (c, db'))
    (hp : parentsOK db = true) : parentsOK db' = true := by
  obtain ⟨kept, removed, hd, hdb, -, -⟩ := deleteManyTake_ok _ _ _ _ _ _ h
  subst hdb
  have hsub : kept.Sublist db.commentLikes := sublist_deleteTake _ _ _ _ _ hd
  rw [parentsOK_iff] at hp ⊢
  obtain ⟨h1, h2, h3, h4, h5, h6, h7, h8, h9, h10⟩ := hp
  exact ⟨h1, h2, fun v hv => h3 v (hsub.subset hv), h4, h5, h6, h7, h8, h9, h10⟩

theorem dmt_commentAuthorInfo_parentsOK (cond : CommentAuthorInfoRow → Bool)
    (t : Nat) (db : DB) (c : Nat) (db' : DB)
    (h : deleteManyTake commentAuthorInfoOps cond t db = .ok (c, db'))
    (hp : parentsOK db = true) : parentsOK db' = true := by
  obtain ⟨kept, removed, hd, hdb, -, -⟩ := deleteManyTake_ok _ _ _ _ _ _ h
  subst hdb
  have hsub : kept.Sublist db.commentAuthorInfos := sublist_deleteTake _ _ _ _ _ hd
  rw [parentsOK_iff] at hp ⊢
  obtain ⟨h1, h2, h3, h4, h5, h6, h7, h8, h9, h10⟩ := hp
  exact ⟨h1, h2, h3, fun v hv => h4 v (hsub.subset hv), h5, h6, h7, h8, h9, h10⟩

theorem dmt_message_parentsOK (cond : MessageRow → Bool) (t : Nat) (db : DB)
    (c : Nat) (db' : DB) (h : deleteManyTake messageOps cond t db = .ok (c, db'))
    (hp : parentsOK db = true) : parentsOK db' = true := by
  obtain ⟨kept, removed, hd, hdb, -, -⟩ := deleteManyTake_ok _ _ _ _ _ _ h
  subst hdb
  have hsub : kept.Sublist db.messages := sublist_deleteTake _ _ _ _ _ hd
  rw [parentsOK_iff] at hp ⊢
  obtain ⟨h1, h2, h3, h4, h5, h6, h7, h8, h9, h10⟩ := hp
  exact ⟨h1, h2, h3, h4, h5, h6, h7, h8, h9, fun v hv => h10 v (hsub.subset hv)⟩

theorem dmt_like_parentsOK (cond : LikeRow → Bool) (t : Nat) (db : DB)
    (c : Nat) (db' : DB) (h : deleteManyTake likeOps cond t db = .ok (c, db'))
    (hp : parentsOK db = true) : parentsOK db' = true := by
  obtain ⟨kept, removed, hd, hdb, -, -⟩ := deleteManyTake_ok _ _ _ _ _ _ h
  subst hdb
  have hsub : kept.Sublist db.likes := sublist_deleteTake _ _ _ _ _ hd
  rw [parentsOK_iff] at hp ⊢
  obtain ⟨h1, h2, h3, h4, h5, h6, h7, h8, h9, h10⟩ := hp
  exact ⟨h1, h2, h3, h4, fun v hv => h5 v (hsub.subset hv), h6, h7, h8, h9, h10⟩

theorem dmt_savedPost_parentsOK (cond : SavedPostRow → Bool) (t : Nat) (db : DB)
    (c : Nat) (db' : DB) (h : deleteManyTake savedPostOps cond t db = .ok (c, db'))
    (hp : parentsOK db = true) : parentsOK db' = true := by
  obtain ⟨kept, removed, hd, hdb, -, -⟩ := deleteManyTake_ok _ _ _ _ _ _ h
  subst hdb
  have hsub : kept.Sublist db.savedPosts := sublist_deleteTake _ _ _ _ _ hd
  rw [parentsOK_iff] at hp ⊢
  obtain ⟨h1, h2, h3, h4, h5, h6, h7, h8, h9, h10⟩ := hp
  exact ⟨h1, h2, h3, h4, h5, fun v hv => h6 v (hsub.subset hv), h7, h8, h9, h10⟩

theorem dmt_postTag_parentsOK (cond : PostTagRow → Bool) (t : Nat) (db : DB)
    (c : Nat) (db' : DB) (h : deleteManyTake postTagOps cond t db = .ok (c, db'))
    (hp : parentsOK db = true) : parentsOK db' = true := by
  obtain ⟨kept, removed, hd, hdb, -, -⟩ := deleteManyTake_ok _ _ _ _ _ _ h
  subst hdb
  have hsub : kept.Sublist db.postTags := sublist_deleteTake _ _ _ _ _ hd
  rw [parentsOK_iff] at hp ⊢
  obtain ⟨h1, h2, h3, h4, h5, h6, h7, h8, h9, h10⟩ := hp
  exact ⟨fun v hv => h1 v (hsub.subset hv), h2, h3, h4, h5, h6, h7, h8, h9, h10⟩

theorem dmt_follow_parentsOK (cond : FollowRow → Bool) (t : Nat) (db : DB)
    (c : Nat) (db' : DB) (h : deleteManyTake followOps cond t db = .ok (c, db'))
    (hp : parentsOK db = true) : parentsOK db' = true := by
  obtain ⟨kept, removed, hd, hdb, -, -⟩ := deleteManyTake_ok _ _ _ _ _ _ h
  subst hdb
  exact hp

theorem dmt_followRequest_parentsOK (cond : FollowRequestRow → Bool) (t : Nat)
    (db : DB) (c : Nat) (db' : DB)
    (h : deleteManyTake followRequestOps cond t db = .ok (c, db'))
    (hp : parentsOK db = true) : parentsOK db' = true := by
  obtain ⟨kept, removed, hd, hdb, -, -⟩ := deleteManyTake_ok _ _ _ _ _ _ h
  subst hdb
  exact hp

theorem dmt_notification_parentsOK (cond : NotificationRow → Bool) (t : Nat)
    (db : DB) (c : Nat) (db' : DB)
    (h : deleteManyTake notificationOps cond t db = .ok (c, db'))
    (hp : parentsOK db = true) : parentsOK db' = true := by
  obtain ⟨kept, removed, hd, hdb, -, -⟩ := deleteManyTake_ok _ _ _ _ _ _ h
  subst hdb
  exact hp

theorem dmt_userSettings_parentsOK (cond : UserSettingsRow → Bool) (t : Nat)
    (db : DB) (c : Nat) (db' : DB)
    (h : deleteManyTake userSettingsOps cond t db = .ok (c, db'))
    (hp : parentsOK db = true) : parentsOK db' = true := by
  obtain ⟨kept, removed, hd, hdb, -, -⟩ := deleteManyTake_ok _ _ _ _ _ _ h
  subst hdb
  exact hp

theorem dmt_userRole_parentsOK (cond : UserRoleRow → Bool) (t : Nat) (db : DB)
    (c : Nat) (db' : DB) (h : deleteManyTake userRoleOps cond t db = .ok (c, db'))
    (hp : parentsOK db = true) : parentsOK db' = true := by
  obtain ⟨kept, removed, hd, hdb, -, -⟩ := deleteManyTake_ok _ _ _ _ _ _ h
  subst hdb
  exact hp

theorem dmt_verificationToken_parentsOK (cond : VerificationTokenRow → Bool)
    (t : Nat) (db : DB) (c : Nat) (db' : DB)
    (h : deleteManyTake verificationTokenOps cond t db = .ok (c, db'))
    (hp : parentsOK db = true) : parentsOK db' = true := by
  obtain ⟨kept, removed, hd, hdb, -, -⟩ := deleteManyTake_ok _ _ _ _ _ _ h
  subst hdb
  exact hp

theorem dmt_session_parentsOK (cond : SessionRow → Bool) (t : Nat) (db : DB)
    (c : Nat) (db' : DB) (h : deleteManyTake sessionOps cond t db = .ok (c, db'))
    (hp : parentsOK db = true) : parentsOK db' = true := by
  obtain ⟨kept, removed, hd, hdb, -, -⟩ := deleteManyTake_ok _ _ _ _ _ _ h
  subst hdb
  exact hp

theorem dmt_userMedia_parentsOK (cond : UserMediaRow → Bool) (t : Nat) (db : DB)
    (c : Nat) (db' : DB) (h : deleteManyTake userMediaOps cond t db = .ok (c, db'))
    (hp : parentsOK db = true) : parentsOK db' = true := by
  obtain ⟨kept, removed, hd, hdb, -, -⟩ := deleteManyTake_ok _ _ _ _ _ _ h
  subst hdb
  exact hp

theorem dmt_userActivityLog_parentsOK (cond : UserActivityLogRow → Bool) (t : Nat)
    (db : DB) (c : Nat) (db' : DB)
    (h : deleteManyTake userActivityLogOps cond t db = .ok (c, db'))
    (hp : parentsOK db = true) : parentsOK db' = true := by
  obtain ⟨kept, removed, hd, hdb, -, -⟩ := deleteManyTake_ok _ _ _ _ _ _ h
  subst hdb
  exact hp

theorem dmt_report_parentsOK (cond : ReportRow → Bool) (t : Nat) (db : DB)
    (c : Nat) (db' : DB) (h : deleteManyTake reportOps cond t db = .ok (c, db'))
    (hp : parentsOK db = true) : parentsOK db' = true := by
  obtain ⟨kept, removed, hd, hdb, -, -⟩ := deleteManyTake_ok _ _ _ _ _ _ h
  subst hdb
  exact hp

theorem dmt_comment_parentsOK (cond : CommentRow → Bool) (t : Nat) (db : DB)
    (c : Nat) (db' : DB) (h : deleteManyTake commentOps cond t db = .ok (c, db'))
    (hp : parentsOK db = true) : parentsOK db' = true := by
  obtain ⟨kept, removed, hd, hdb, -, hchk⟩ := deleteManyTake_ok _ _ _ _ _ _ h
  subst hdb
  have hsub : kept.Sublist db.comments := sublist_deleteTake _ _ _ _ _ hd
  have hmem := mem_deleteTake_split _ _ _ _ _ hd
  rw [parentsOK_iff] at hp ⊢
  obtain ⟨h1, h2, h3, h4, h5, h6, h7, h8, h9, h10⟩ := hp
  have key : ∀ cid, commentIn db.comments cid = true →
      ((∃ w ∈ db.commentLikes, w.commentId = cid) ∨
       (∃ w ∈ db.commentAuthorInfos, w.commentId = cid)) →
      commentIn kept cid = true := by
    intro cid hold hw
    rw [commentIn, List.any_eq_true] at hold
    obtain ⟨s, hs, hsid⟩ := hold
    rw [beq_iff_eq] at hsid
    rcases hmem s hs with hk | hr
    · exact List.any_eq_true.mpr ⟨s, hk, by rw [beq_iff_eq, hsid]⟩
    · exfalso
      have href := hchk s hr
      simp only [commentOps, Bool.or_eq_false_iff, List.any_eq_false] at href
      rcases hw with ⟨w, hwm, hwid⟩ | ⟨w, hwm, hwid⟩
      · exact href.1 w hwm (by rw [beq_iff_eq, hwid, hsid])
      · exact href.2 w hwm (by rw [beq_iff_eq, hwid, hsid])
  refine ⟨h1, fun v hv => h2 v (hsub.subset hv), ?_, ?_, h5, h6, h7, h8, h9, h10⟩
  · exact fun v hv => key v.commentId (h3 v hv) (Or.inl ⟨v, hv, rfl⟩)
  · exact fun v hv => key v.commentId (h4 v hv) (Or.inr ⟨v, hv, rfl⟩)

theorem dmt_conversation_parentsOK (cond : ConversationRow → Bool) (t : Nat)
    (db : DB) (c : Nat) (db' : DB)
    (h : deleteManyTake conversationOps cond t db = .ok (c, db'))
    (hp : parentsOK db = true) : parentsOK db' = true := by
  obtain ⟨kept, removed, hd, hdb, -, hchk⟩ := deleteManyTake_ok _ _ _ _ _ _ h
  subst hdb
  have hmem := mem_deleteTake_split _ _ _ _ _ hd
  rw [parentsOK_iff] at hp ⊢
  obtain ⟨h1, h2, h3, h4, h5, h6, h7, h8, h9, h10⟩ := hp
  refine ⟨h1, h2, h3, h4, h5, h6, h7, h8, h9, ?_⟩
  intro v hv
  have hold := h10 v hv
  rw [convIn, List.any_eq_true] at hold
  obtain ⟨s, hs, hsid⟩ := hold
  rw [beq_iff_eq] at hsid
  rcases hmem s hs with hk | hr
  · exact List.any_eq_true.mpr ⟨s, hk, by rw [beq_iff_eq, hsid]⟩
  · exfalso
    have href := hchk s hr
    simp only [conversationOps, List.any_eq_false] at href
    exact href v hv (by rw [beq_iff_eq, hsid])

theorem dmt_post_parentsOK (cond : PostRow → Bool) (t : Nat) (db : DB)
    (c : Nat) (db' : DB) (h : deleteManyTake postOps cond t db = .ok (c, db'))
    (hp : parentsOK db = true) : parentsOK db' = true := by
  obtain ⟨kept, removed, hd, hdb, -, hchk⟩ := deleteManyTake_ok _ _ _ _ _ _ h
  subst hdb
  have hmem := mem_deleteTake_split _ _ _ _ _ hd
  rw [parentsOK_iff] at hp ⊢
  obtain ⟨h1, h2, h3, h4, h5, h6, h7, h8, h9, h10⟩ := hp
  have key : ∀ pid, postIn db.posts pid = true →
      ((∃ w ∈ db.postTags, w.postId = pid) ∨
       (∃ w ∈ db.comments, w.postId = pid) ∨
       (∃ w ∈ db.likes, w.postId = pid) ∨
       (∃ w ∈ db.savedPosts, w.postId = pid)) →
      postIn kept pid = true := by
    intro pid hold hw
    rw [postIn, List.any_eq_true] at hold
    obtain ⟨s, hs, hsid⟩ := hold
    rw [beq_iff_eq] at hsid
    rcases hmem s hs with hk | hr
    · exact List.any_eq_true.mpr ⟨s, hk, by rw [beq_iff_eq, hsid]⟩
    · exfalso
      have href := hchk s hr
      simp only [postOps, Bool.or_eq_false_iff, List.any_eq_false] at href
      rcases hw with ⟨w, hwm, hwid⟩ | ⟨w, hwm, hwid⟩ | ⟨w, hwm, hwid⟩ | ⟨w, hwm, hwid⟩
      · exact href.1.1.1 w hwm (by rw [beq_iff_eq, hwid, hsid])
      · exact href.1.1.2 w hwm (by rw [beq_iff_eq, hwid, hsid])
      · exact href.1.2 w hwm (by rw [beq_iff_eq, hwid, hsid])
      · exact href.2 w hwm (by rw [beq_iff_eq, hwid, hsid])
  refine ⟨?_, ?_, h3, h4, ?_, ?_, h7, h8, h9, h10⟩
  · exact fun v hv => key v.postId (h1 v hv) (Or.inl ⟨v, hv, rfl⟩)
  · exact fun v hv => key v.postId (h2 v hv) (Or.inr (Or.inl ⟨v, hv, rfl⟩))
  · exact fun v hv => key v.postId (h5 v hv) (Or.inr (Or.inr (Or.inl ⟨v, hv, rfl⟩)))
  · exact fun v hv => key v.postId (h6 v hv) (Or.inr (Or.inr (Or.inr ⟨v, hv, rfl⟩)))

/-! ### Step-level lemmas for the transaction body -/

theorem purgeStep_none (key ev : String) (F : FamOps ρ) (cond : DB → ρ → Bool)
    (st st' : TxState) (h : purgeStep key ev F cond st = (none, st')) :
    ∃ n db2, deleteInBatches F cond BATCH_SIZE st.db = .ok (n, db2) ∧
      st' = ⟨db2, st.counts ++ [(key, n)], st.trace ++ [Event.purge ev]⟩ := by
  unfold purgeStep at h
  rcases hd : deleteInBatches F cond BATCH_SIZE st.db with e | ⟨n, db2⟩ <;> rw [hd] at h
  · simp at h
  · simp only [Prod.mk.injEq] at h
    exact ⟨n, db2, rfl, h.2.symm⟩

theorem purgeStep_trace (key ev : String) (F : FamOps ρ) (cond : DB → ρ → Bool)
    (st : TxState) :
    (purgeStep key ev F cond st).2.trace = st.trace ++ [Event.purge ev] := by
  unfold purgeStep
  rcases hd : deleteInBatches F cond BATCH_SIZE st.db with e | ⟨n, db2⟩ <;> simp [hd]

theorem softDeleteStep_none (uid now : Nat) (st st' : TxState)
    (h : softDeleteStep uid now st = (none, st')) :
    ∃ db2, softDeleteUser st.db uid now = .ok db2 ∧
      st' = ⟨db2, st.counts, st.trace ++ [Event.softDelete]⟩ := by
  unfold softDeleteStep at h
  rcases hd : softDeleteUser st.db uid now with e | db2 <;> rw [hd] at h
  · simp at h
  · simp only [Prod.mk.injEq] at h
    exact ⟨db2, rfl, h.2.symm⟩

theorem softDeleteStep_trace (uid now : Nat) (st : TxState) :
    (softDeleteStep uid now st).2.trace = st.trace ++ [Event.softDelete] := by
  unfold softDeleteStep
  rcases hd : softDeleteUser st.db uid now with e | db2 <;> simp [hd]

theorem userDeleteStep_none (uid : Nat) (st st' : TxState)
    (h : userDeleteStep uid st = (none, st')) :
    st.db.users.any (fun u => u.id == uid) = true ∧
    dbRefsUser { st.db with users := st.db.users.filter (fun u => !(u.id == uid)) } uid = false ∧
    st' = ⟨{ st.db with users := st.db.users.filter (fun u => !(u.id == uid)) },
      st.counts ++ [("user", 1)], st.trace ++ [Event.userDelete]⟩ := by
  unfold userDeleteStep at h
  simp only [] at h
  split at h
  · split at h
    · simp at h
    · simp only [Prod.mk.injEq] at h
      rename_i hex href
      exact ⟨hex, by simpa using href, h.2.symm⟩
  · simp at h

theorem userDeleteStep_trace (uid : Nat) (st : TxState) :
    (userDeleteStep uid st).2.trace = st.trace ++ [Event.userDelete] := by
  unfold userDeleteStep
  simp only []
  split
  · split <;> simp
  · simp

theorem softDeleteUser_parentsOK (db : DB) (uid now : Nat) (db' : DB)
    (h : softDeleteUser db uid now = .ok db') (hp : parentsOK db = true) :
    parentsOK db' = true := by
  unfold softDeleteUser at h
  split at h
  · simp only [Except.ok.injEq] at h
    subst h
    exact hp
  · simp at h

theorem runSteps_cons_none (f : TxState → Option String × TxState)
    (fs : List (TxState → Option String × TxState)) (st stF : TxState)
    (h : runSteps (f :: fs) st = (none, stF)) :
    ∃ st1, f st = (none, st1) ∧ runSteps fs st1 = (none, stF) := by
  unfold runSteps at h
  rcases hf : f st with ⟨e?, st1⟩
  rw [hf] at h
  cases e? with
  | some e => simp at h
  | none => exact ⟨st1, rfl, h⟩

theorem runSteps_nil_none (st stF : TxState) (h : runSteps [] st = (none, stF)) :
    stF = st := by
  unfold runSteps at h
  simp only [Prod.mk.injEq] at h
  exact h.2.symm

theorem runSteps_trace_ext (fs : List (TxState → Option String × TxState))
    (hfs : ∀ f ∈ fs, ∀ st, ∃ t, (f st).2.trace = st.trace ++ t) :
    ∀ st, ∃ t, (runSteps fs st).2.trace = st.trace ++ t := by
  induction fs with
  | nil => intro st; exact ⟨[], by simp [runSteps]⟩
  | cons f fs ih =>
    intro st
    unfold runSteps
    rcases hf : f st with ⟨e?, st1⟩
    obtain ⟨t1, ht1⟩ := hfs f (by simp) st
    rw [hf] at ht1
    cases e? with
    | some e => exact ⟨t1, ht1⟩
    | none =>
      obtain ⟨t2, ht2⟩ := ih (fun g hg => hfs g (by simp [hg])) st1
      exact ⟨t1 ++ t2, by rw [ht2, ht1, List.append_assoc]⟩

theorem txSteps_trace_ext (uid : Nat) :
    ∀ f ∈ txSteps uid, ∀ st, ∃ t, (f st).2.trace = st.trace ++ t := by
  intro f hf st
  simp only [txSteps, List.mem_cons, List.not_mem_nil, or_false] at hf
  rcases hf with h | h | h | h | h | h | h | h | h | h | h | h |
    h | h | h | h | h | h | h | h | h | h | h | h <;> subst h
  all_goals first
    | exact ⟨_, purgeStep_trace _ _ _ _ st⟩
    | exact ⟨_, userDeleteStep_trace uid st⟩

/-- What a successful pass through the cascade's 23 purges plus the final
user delete guarantees: the exact write trace, the `user = 1` count entry,
preservation of referential integrity, and — from the FK check of the
final delete — that nothing referencing the user id remains and the user
row itself is gone. -/
theorem runTxSteps_ok (uid : Nat) (st0 stF : TxState)
    (h : runSteps (txSteps uid) st0 = (none, stF)) :
    stF.trace = st0.trace ++ (allFamilies.map Event.purge ++ [Event.userDelete]) ∧
    ("user", 1) ∈ stF.counts ∧
    (parentsOK st0.db = true → parentsOK stF.db = true) ∧
    dbRefsUser stF.db uid = false ∧
    stF.db.users.all (fun u => !(u.id == uid)) = true := by
  simp only [txSteps] at h
  obtain ⟨s1, hf1, h⟩ := runSteps_cons_none _ _ _ _ h
  obtain ⟨n1, d1, hd1, he1⟩ := purgeStep_none _ _ _ _ _ _ hf1
  subst he1
  obtain ⟨s2, hf2, h⟩ := runSteps_cons_none _ _ _ _ h
  obtain ⟨n2, d2, hd2, he2⟩ := purgeStep_none _ _ _ _ _ _ hf2
  subst he2
  obtain ⟨s3, hf3, h⟩ := runSteps_cons_none _ _ _ _ h
  obtain ⟨n3, d3, hd3, he3⟩ := purgeStep_none _ _ _ _ _ _ hf3
  subst he3
  obtain ⟨s4, hf4, h⟩ := runSteps_cons_none _ _ _ _ h
  obtain ⟨n4, d4, hd4, he4⟩ := purgeStep_none _ _ _ _ _ _ hf4
  subst he4
  obtain ⟨s5, hf5, h⟩ := runSteps_cons_none _ _ _ _ h
  obtain ⟨n5, d5, hd5, he5⟩ := purgeStep_none _ _ _ _ _ _ hf5
  subst he5
  obtain ⟨s6, hf6, h⟩ := runSteps_cons_none _ _ _ _ h
  obtain ⟨n6, d6, hd6, he6⟩ := purgeStep_none _ _ _ _ _ _ hf6
  subst he6
  obtain ⟨s7, hf7, h⟩ := runSteps_cons_none _ _ _ _ h
  obtain ⟨n7, d7, hd7, he7⟩ := purgeStep_none _ _ _ _ _ _ hf7
  subst he7
  obtain ⟨s8, hf8, h⟩ := runSteps_cons_none _ _ _ _ h
  obtain ⟨n8, d8, hd8, he8⟩ := purgeStep_none _ _ _ _ _ _ hf8
  subst he8
  obtain ⟨s9, hf9, h⟩ := runSteps_cons_none _ _ _ _ h
  obtain ⟨n9, d9, hd9, he9⟩ := purgeStep_none _ _ _ _ _ _ hf9
  subst he9
  obtain ⟨s10, hf10, h⟩ := runSteps_cons_none _ _ _ _ h
  obtain ⟨n10, d10, hd10, he10⟩ := purgeStep_none _ _ _ _ _ _ hf10
  subst he10
  obtain ⟨s11, hf11, h⟩ := runSteps_cons_none _ _ _ _ h
  obtain ⟨n11, d11, hd11, he11⟩ := purgeStep_none _ _ _ _ _ _ hf11
  subst he11
  obtain ⟨s12, hf12, h⟩ := runSteps_cons_none _ _ _ _ h
  obtain ⟨n12, d12, hd12, he12⟩ := purgeStep_none _ _ _ _ _ _ hf12
  subst he12
  obtain ⟨s13, hf13, h⟩ := runSteps_cons_none _ _ _ _ h
  obtain ⟨n13, d13, hd13, he13⟩ := purgeStep_none _ _ _ _ _ _ hf13
  subst he13
  obtain ⟨s14, hf14, h⟩ := runSteps_cons_none _ _ _ _ h
  obtain ⟨n14, d14, hd14, he14⟩ := purgeStep_none _ _ _ _ _ _ hf14
  subst he14
  obtain ⟨s15, hf15, h⟩ := runSteps_cons_none _ _ _ _ h
  obtain ⟨n15, d15, hd15, he15⟩ := purgeStep_none _ _ _ _ _ _ hf15
  subst he15
  obtain ⟨s16, hf16, h⟩ := runSteps_cons_none _ _ _ _ h
  obtain ⟨n16, d16, hd16, he16⟩ := purgeStep_none _ _ _ _ _ _ hf16
  subst he16
  obtain ⟨s17, hf17, h⟩ := runSteps_cons_none _ _ _ _ h
  obtain ⟨n17, d17, hd17, he17⟩ := purgeStep_none _ _ _ _ _ _ hf17
  subst he17
  obtain ⟨s18, hf18, h⟩ := runSteps_cons_none _ _ _ _ h
  obtain ⟨n18, d18, hd18, he18⟩ := purgeStep_none _ _ _ _ _ _ hf18
  subst he18
  obtain ⟨s19, hf19, h⟩ := runSteps_cons_none _ _ _ _ h
  obtain ⟨n19, d19, hd19, he19⟩ := purgeStep_none _ _ _ _ _ _ hf19
  subst he19
  obtain ⟨s20, hf20, h⟩ := runSteps_cons_none _ _ _ _ h
  obtain ⟨n20, d20, hd20, he20⟩ := purgeStep_none _ _ _ _ _ _ hf20
  subst he20
  obtain ⟨s21, hf21, h⟩ := runSteps_cons_none _ _ _ _ h
  obtain ⟨n21, d21, hd21, he21⟩ := purgeStep_none _ _ _ _ _ _ hf21
  subst he21
  obtain ⟨s22, hf22, h⟩ := runSteps_cons_none _ _ _ _ h
  obtain ⟨n22, d22, hd22, he22⟩ := purgeStep_none _ _ _ _ _ _ hf22
  subst he22
  obtain ⟨s23, hf23, h⟩ := runSteps_cons_none _ _ _ _ h
  obtain ⟨n23, d23, hd23, he23⟩ := purgeStep_none _ _ _ _ _ _ hf23
  subst he23
  obtain ⟨s24, hf24, h⟩ := runSteps_cons_none _ _ _ _ h
  have hfin := runSteps_nil_none _ _ h
  subst hfin
  obtain ⟨hex, href, he24⟩ := userDeleteStep_none _ _ _ hf24
  subst he24
  refine ⟨?_, ?_, ?_, ?_, ?_⟩
  · simp [allFamilies]
  · simp
  · intro hp
    have p1 := deleteInBatches_preserves storyViewOps _ BATCH_SIZE
      (fun d => parentsOK d = true) dmt_storyView_parentsOK _ _ _ hd1 hp
    have p2 := deleteInBatches_preserves storyLikeOps _ BATCH_SIZE
      (fun d => parentsOK d = true) dmt_storyLike_parentsOK _ _ _ hd2 p1
    have p3 := deleteInBatches_preserves storyHighlightOps _ BATCH_SIZE
      (fun d => parentsOK d = true) dmt_storyHighlight_parentsOK _ _ _ hd3 p2
    have p4 := deleteInBatches_preserves storyOps _ BATCH_SIZE
      (fun d => parentsOK d = true) dmt_story_parentsOK _ _ _ hd4 p3
    have p5 := deleteInBatches_preserves commentLikeOps _ BATCH_SIZE
      (fun d => parentsOK d = true) dmt_commentLike_parentsOK _ _ _ hd5 p4
    have p6 := deleteInBatches_preserves commentAuthorInfoOps _ BATCH_SIZE
      (fun d => parentsOK d = true) dmt_commentAuthorInfo_parentsOK _ _ _ hd6 p5
    have p7 := deleteInBatches_preserves commentOps _ BATCH_SIZE
      (fun d => parentsOK d = true) dmt_comment_parentsOK _ _ _ hd7 p6
    have p8 := deleteInBatches_preserves messageOps _ BATCH_SIZE
      (fun d => parentsOK d = true) dmt_message_parentsOK _ _ _ hd8 p7
    have p9 := deleteInBatches_preserves conversationOps _ BATCH_SIZE
      (fun d => parentsOK d = true) dmt_conversation_parentsOK _ _ _ hd9 p8
    have p10 := deleteInBatches_preserves likeOps _ BATCH_SIZE
      (fun d => parentsOK d = true) dmt_like_parentsOK _ _ _ hd10 p9
    have p11 := deleteInBatches_preserves savedPostOps _ BATCH_SIZE
      (fun d => parentsOK d = true) dmt_savedPost_parentsOK _ _ _ hd11 p10
    have p12 := deleteInBatches_preserves followRequestOps _ BATCH_SIZE
      (fun d => parentsOK d = true) dmt_followRequest_parentsOK _ _ _ hd12 p11
    have p13 := deleteInBatches_preserves followOps _ BATCH_SIZE
      (fun d => parentsOK d = true) dmt_follow_parentsOK _ _ _ hd13 p12
    have p14 := deleteInBatches_preserves notificationOps _ BATCH_SIZE
      (fun d => parentsOK d = true) dmt_notification_parentsOK _ _ _ hd14 p13
    have p15 := deleteInBatches_preserves userMediaOps _ BATCH_SIZE
      (fun d => parentsOK d = true) dmt_userMedia_parentsOK _ _ _ hd15 p14
    have p16 := deleteInBatches_preserves userActivityLogOps _ BATCH_SIZE
      (fun d => parentsOK d = true) dmt_userActivityLog_parentsOK _ _ _ hd16 p15
    have p17 := deleteInBatches_preserves userSettingsOps _ BATCH_SIZE
      (fun d => parentsOK d = true) dmt_userSettings_parentsOK _ _ _ hd17 p16
    have p18 := deleteInBatches_preserves userRoleOps _ BATCH_SIZE
      (fun d => parentsOK d = true) dmt_userRole_parentsOK _ _ _ hd18 p17
    have p19 := deleteInBatches_preserves verificationTokenOps _ BATCH_SIZE
      (fun d => parentsOK d = true) dmt_verificationToken_parentsOK _ _ _ hd19 p18
    have p20 := deleteInBatches_preserves sessionOps _ BATCH_SIZE
      (fun d => parentsOK d = true) dmt_session_parentsOK _ _ _ hd20 p19
    have p21 := deleteInBatches_preserves postTagOps _ BATCH_SIZE
      (fun d => parentsOK d = true) dmt_postTag_parentsOK _ _ _ hd21 p20
    have p22 := deleteInBatches_preserves postOps _ BATCH_SIZE
      (fun d => parentsOK d = true) dmt_post_parentsOK _ _ _ hd22 p21
    have p23 := deleteInBatches_preserves reportOps _ BATCH_SIZE
      (fun d => parentsOK d = true) dmt_report_parentsOK _ _ _ hd23 p22
    exact p23
  · exact href
  · exact List.all_eq_true.mpr (fun u hu => by
      have := (List.mem_filter.mp hu).2
      simpa using this)

/-- Success characterization of the whole transaction body. -/
theorem txBody_ok (db : DB) (uid : Nat) (sd : Bool) (tS : Nat) (st : TxState)
    (h : txBody db uid sd tS = (none, st)) :
    st.trace = expectedTrace sd ∧
    ("user", 1) ∈ st.counts ∧
    (parentsOK db = true → parentsOK st.db = true) ∧
    dbRefsUser st.db uid = false ∧
    st.db.users.all (fun u => !(u.id == uid)) = true := by
  cases sd with
  | false =>
    have h' : runSteps (txSteps uid) ⟨db, [], []⟩ = (none, st) := h
    obtain ⟨ht, hc, hp, hr, hu⟩ := runTxSteps_ok uid _ _ h'
    exact ⟨by simpa [expectedTrace] using ht, hc, hp, hr, hu⟩
  | true =>
    have h' : stepThen (softDeleteStep uid tS ⟨db, [], []⟩)
        (runSteps (txSteps uid)) = (none, st) := h
    unfold stepThen at h'
    rcases hs : softDeleteStep uid tS ⟨db, [], []⟩ with ⟨e?, st1⟩
    rw [hs] at h'
    cases e? with
    | some e => simp at h'
    | none =>
      obtain ⟨db2, hsd, he⟩ := softDeleteStep_none _ _ _ _ hs
      subst he
      obtain ⟨ht, hc, hp, hr, hu⟩ := runTxSteps_ok uid _ _ h'
      refine ⟨by simpa [expectedTrace] using ht, hc, ?_, hr, hu⟩
      exact fun hpdb => hp (softDeleteUser_parentsOK _ _ _ _ hsd hpdb)

theorem deleteUserAndData_validate_err (db : DB) (uid : Nat) (sd : Bool)
    (t0 tS t2 : Nat) (e : String) (hv : validateUserDeletion db uid = .error e) :
    deleteUserAndData db uid sd t0 tS t2 = (.error (wrapMsg uid e), db, []) := by
  unfold deleteUserAndData
  rw [hv]

theorem deleteUserAndData_tx_err (db : DB) (uid : Nat) (sd : Bool)
    (t0 tS t2 : Nat) (e : String) (st : TxState)
    (hv : validateUserDeletion db uid = .ok ()) (ht : txBody db uid sd tS = (some e, st)) :
    deleteUserAndData db uid sd t0 tS t2 = (.error (wrapMsg uid e), db, st.trace) := by
  unfold deleteUserAndData
  rw [hv, ht]

theorem deleteUserAndData_tx_ok (db : DB) (uid : Nat) (sd : Bool)
    (t0 tS t2 : Nat) (st : TxState)
    (hv : validateUserDeletion db uid = .ok ()) (ht : txBody db uid sd tS = (none, st)) :
    deleteUserAndData db uid sd t0 tS t2 =
      (.ok ⟨true, st.counts, t2 - t0⟩, st.db, st.trace) := by
  unfold deleteUserAndData
  rw [hv, ht]

/-! ### Concrete databases for witnesses and counterexamples -/

/-- A seeded state: user `1` owns rows in every dependent family (some
created by user `2`, linked to user `1`'s content through relation
filters); user `2` has own rows that must survive. -/
def exDb : DB where
  users := [⟨1, true, false, none, "a@x", "alice", 0⟩,
            ⟨2, true, false, none, "b@x", "bob", 0⟩]
  posts := [⟨10, 1⟩]
  postTags := [⟨20, 10⟩]
  comments := [⟨30, 1, 10⟩]
  commentLikes := [⟨40, 2, 30⟩]
  commentAuthorInfos := [⟨50, 1, 30⟩]
  likes := [⟨60, 1, 10⟩]
  savedPosts := [⟨70, 1, 10⟩]
  stories := [⟨80, 1⟩]
  storyViews := [⟨90, 2, 80⟩]
  storyLikes := [⟨100, 2, 80⟩]
  storyHighlights := [⟨110, 1, 80⟩]
  follows := [⟨120, 1, 2⟩]
  followRequests := [⟨130, 2, 1⟩]
  conversations := [⟨140, 1, 2⟩]
  messages := [⟨150, 1, 2, 140⟩, ⟨151, 2, 1, 140⟩]
  notifications := [⟨160, 1, 2⟩]
  userSettings := [⟨170, 1⟩]
  userRoles := [⟨180, 1, "USER"⟩, ⟨181, 2, "USER"⟩]
  verificationTokens := [⟨190, 1⟩]
  sessions := [⟨200, 1⟩, ⟨201, 2⟩]
  userMedias := [⟨210, 1⟩]
  userActivityLogs := [⟨220, 1⟩]
  reports := [⟨230, 1⟩]

/-- A state on which the cascade fails midway: the first purge (story
views) removes a row, but user `2`'s like on user `1`'s post is outside
every purge filter and blocks the post delete with a foreign-key
violation. -/
def exDb2 : DB where
  users := [⟨1, true, false, none, "a@x", "alice", 0⟩,
            ⟨2, true, false, none, "b@x", "bob", 0⟩]
  posts := [⟨10, 1⟩]
  postTags := []
  comments := []
  commentLikes := []
  commentAuthorInfos := []
  likes := [⟨60, 2, 10⟩]
  savedPosts := []
  stories := [⟨80, 1⟩]
  storyViews := [⟨90, 2, 80⟩]
  storyLikes := []
  storyHighlights := []
  follows := []
  followRequests := []
  conversations := []
  messages := []
  notifications := []
  userSettings := []
  userRoles := []
  verificationTokens := []
  sessions := []
  userMedias := []
  userActivityLogs := []
  reports := []

/-- The empty database. -/
def dbEmpty : DB where
  users := []
  posts := []
  postTags := []
  comments := []
  commentLikes := []
  commentAuthorInfos := []
  likes := []
  savedPosts := []
  stories := []
  storyViews := []
  storyLikes := []
  storyHighlights := []
  follows := []
  followRequests := []
  conversations := []
  messages := []
  notifications := []
  userSettings := []
  userRoles := []
  verificationTokens := []
  sessions := []
  userMedias := []
  userActivityLogs := []
  reports := []

/-- One user (an administrator) and their role row only. -/
def dbAdmin : DB :=
  { dbEmpty with
    users := [⟨3, true, false, none, "c@x", "carol", 0⟩]
    userRoles := [⟨300, 3, "ADMIN"⟩] }

/-- One banned, inactive, ordinary user only. -/
def dbBanned : DB :=
  { dbEmpty with
    users := [⟨4, false, true, some "spam", "d@x", "dave", 0⟩]
    userRoles := [⟨400, 4, "USER"⟩] }

/-- One ordinary user only. -/
def dbSolo1 : DB :=
  { dbEmpty with users := [⟨1, true, false, none, "a@x", "alice", 0⟩] }

/-- Another ordinary user only. -/
def dbSolo2 : DB :=
  { dbEmpty with users := [⟨2, true, false, none, "b@x", "bob", 0⟩] }

/-- Whether an `Except` result is a success. -/
def exceptOk (r : Except ε α) : Bool :=
  match r with
  | .ok _ => true
  | .error _ => false

/-- The `deletedCounts` record of the successful erasure of user `1` from
`exDb`. -/
def exOkCounts : List (String × Nat) :=
  [("storyViews", 1), ("storyLikes", 1), ("storyHighlights", 1),
   ("stories", 1), ("commentLikes", 1), ("commentAuthorInfo", 1),
   ("comments", 1), ("messages", 2), ("conversations", 1), ("likes", 1),
   ("savedPosts", 1), ("followRequests", 1), ("follows", 1),
   ("notifications", 1), ("userMedia", 1), ("userActivityLogs", 1),
   ("userSettings", 1), ("userRoles", 1), ("verificationTokens", 1),
   ("sessions", 1), ("postTags", 1), ("posts", 1), ("reports", 1),
   ("user", 1)]

/-! ### C1 — referential closure of a successful erasure -/

/-- C1: for every user id and every seeded database state (one whose
parent foreign keys are intact), after `deleteUserAndData` returns
successfully the user row is absent, no row in any dependent family
references the deleted user id, and no row references a now-deleted parent
row (every parent foreign key still has a target). -/
theorem erase_user_referential_closure (db : DB) (uid : Nat) (sd : Bool)
    (t0 tS t2 : Nat) (hseed : parentsOK db = true)
    (hok : exceptOk (deleteUserAndData db uid sd t0 tS t2).1 = true) :
    (deleteUserAndData db uid sd t0 tS t2).2.1.users.all
      (fun u => !(u.id == uid)) = true ∧
    dbRefsUser (deleteUserAndData db uid sd t0 tS t2).2.1 uid = false ∧
    parentsOK (deleteUserAndData db uid sd t0 tS t2).2.1 = true := by
  rcases hv : validateUserDeletion db uid with e | u
  · rw [deleteUserAndData_validate_err db uid sd t0 tS t2 e hv] at hok
    simp [exceptOk] at hok
  · cases u
    rcases ht : txBody db uid sd tS with ⟨e?, st⟩
    cases e? with
    | some e =>
      rw [deleteUserAndData_tx_err db uid sd t0 tS t2 e st hv ht] at hok
      simp [exceptOk] at hok
    | none =>
      obtain ⟨-, -, hp, hr, hu⟩ := txBody_ok db uid sd tS st ht
      rw [deleteUserAndData_tx_ok db uid sd t0 tS t2 st hv ht]
      exact ⟨hu, hr, hp hseed⟩

/-- C1 witness: erasing user `1` from the seeded `exDb` (rows in every
dependent family) succeeds and the closure conclusions hold there. -/
theorem erase_user_referential_closure_witness :
    parentsOK exDb = true ∧
    exceptOk (deleteUserAndData exDb 1 true 0 5 9).1 = true ∧
    ((deleteUserAndData exDb 1 true 0 5 9).2.1.users.all
       (fun u => !(u.id == 1)) = true ∧
     dbRefsUser (deleteUserAndData exDb 1 true 0 5 9).2.1 1 = false ∧
     parentsOK (deleteUserAndData exDb 1 true 0 5 9).2.1 = true) :=
  ⟨by decide, by rfl,
   erase_user_referential_closure exDb 1 true 0 5 9 (by decide) (by rfl)⟩

/-! ### C2 — atomic rollback on any failure -/

/-- C2: whenever `deleteUserAndData` returns an error — in particular when
a purge step fails after earlier families were already purged inside the
same call — the database afterwards equals the database before the call:
the whole erasure commits as a single unit or not at all. -/
theorem erase_user_atomic_rollback (db : DB) (uid : Nat) (sd : Bool)
    (t0 tS t2 : Nat) (e : String)
    (h : (deleteUserAndData db uid sd t0 tS t2).1 = .error e) :
    (deleteUserAndData db uid sd t0 tS t2).2.1 = db := by
  rcases hv : validateUserDeletion db uid with e' | u
  · rw [deleteUserAndData_validate_err db uid sd t0 tS t2 e' hv]
  · cases u
    rcases ht : txBody db uid sd tS with ⟨e?, st⟩
    cases e? with
    | some e' => rw [deleteUserAndData_tx_err db uid sd t0 tS t2 e' st hv ht]
    | none =>
      rw [deleteUserAndData_tx_ok db uid sd t0 tS t2 st hv ht] at h
      simp at h

/-- C2 witness: on `exDb2` the first purge (story views) removes a row,
then the post purge hits a foreign-key violation; the call errors and the
database afterwards is exactly `exDb2`. -/
theorem erase_user_atomic_rollback_witness :
    (deleteUserAndData exDb2 1 true 0 0 0).1 =
      .error (wrapMsg 1 "Foreign key constraint violated") ∧
    (deleteUserAndData exDb2 1 true 0 0 0).2.1 = exDb2 ∧
    exDb2.storyViews ≠ [] :=
  ⟨by rfl, erase_user_atomic_rollback exDb2 1 true 0 0 0 _ (by rfl), by decide⟩

/-! ### C3 — batched purger counting -/

/-- C3: with batch size `b ≥ 1` and `n` matching rows, where each delete
call removes `min(remaining, b)` rows, the purger loop finishes (within
any fuel `> n`), removes all `n` rows, and issues exactly `n / b + 1`
delete calls — it stops exactly after the first call that deletes fewer
than `b` rows, and when `b` divides a positive `n` it issues at least one
further confirming call (`n / b + 1 ≥ 2`). -/
theorem batch_purger_counts (b n : Nat) (hb : 1 ≤ b) :
    deleteInBatchesGo countingDeleteMany b (n + 1) n =
      some (.ok ((n, n / b + 1), 0)) ∧
    (b ∣ n → 0 < n → 2 ≤ n / b + 1) := by
  constructor
  · exact countBatches_complete b hb (n + 1) n (Nat.lt_succ_self n)
  · intro hdvd hpos
    have h1 : b ≤ n := Nat.le_of_dvd hpos hdvd
    have h2 : 1 ≤ n / b := (Nat.one_le_div_iff (by omega)).mpr h1
    omega

/-- C3 witness: 2500 rows at batch size 1000 are removed by exactly three
delete calls (1000, 1000, 500) totalling 2500; 2000 rows at batch size
1000 take a further confirming call (three calls, not two). -/
theorem batch_purger_counts_witness :
    deleteInBatchesGo countingDeleteMany 1000 2501 2500 =
      some (.ok ((2500, 3), 0)) ∧
    2 ≤ 2000 / 1000 + 1 := by
  constructor
  · exact (batch_purger_counts 1000 2500 (by decide)).1
  · exact (batch_purger_counts 1000 2000 (by decide)).2 (by decide) (by decide)

/-! ### C9 — termination of the purger loop, and necessity of b ≥ 1 -/

/-- C9: for every batch size `b ≥ 1` and any finite row population `n` the
purger loop terminates (fuel `n + 1` suffices, since a continuing call
removes exactly `b ≥ 1` rows), while for `b = 0` every call deletes
`0 = b` rows, the loop guard never becomes false, and no amount of fuel
completes the loop. -/
theorem batch_purger_termination :
    (∀ b, 1 ≤ b → ∀ n, deleteInBatchesGo countingDeleteMany b (n + 1) n =
        some (.ok ((n, n / b + 1), 0))) ∧
    (∀ fuel n, deleteInBatchesGo countingDeleteMany 0 fuel n = none) := by
  constructor
  · exact fun b hb n => countBatches_complete b hb (n + 1) n (Nat.lt_succ_self n)
  · exact countBatches_zero_diverges

/-- C9 witness: batch size 2 finishes 5 rows in three calls; batch size 0
makes no progress under any fuel. -/
theorem batch_purger_termination_witness :
    deleteInBatchesGo countingDeleteMany 2 6 5 = some (.ok ((5, 3), 0)) ∧
    deleteInBatchesGo countingDeleteMany 0 7 5 = none := by
  constructor
  · exact batch_purger_termination.1 2 (by decide) 5
  · exact batch_purger_termination.2 7 5

/-! ### C4 — purge ordering -/

/-- C4 as stated is false on the code: on a successful run the final purge
slots are not the account/session/audit families — post tags, posts and
reports are purged after the sessions, and reports purge last.  The
claimed ordering predicate (topological order plus account families last)
evaluates to false on the actual trace. -/
theorem erase_order_counterexample :
    exceptOk (deleteUserAndData dbSolo1 1 true 0 0 0).1 = true ∧
    claimedOrder (deleteUserAndData dbSolo1 1 true 0 0 0).2.2 = false ∧
    topoOK (deleteUserAndData dbSolo1 1 true 0 0 0).2.2 = true :=
  ⟨by rfl, by rfl, by rfl⟩

/-- C4 amended: every successful run issues the purges in the fixed source
order — story views/likes/highlights, stories, comment likes, comment
author snapshots, comments, messages, conversations, likes, saved posts,
follow requests, follows, notifications, user media, activity logs,
settings, roles, tokens, sessions, post tags, posts, reports — which is
topological (every family that can hold a foreign key into another is
purged first) with the user-row delete last; but the account/session/audit
families are not last among the dependents: post tags, posts and reports
follow them, and reports purge immediately before the user row. -/
theorem erase_order_amended (db : DB) (uid : Nat) (sd : Bool) (t0 tS t2 : Nat)
    (hok : exceptOk (deleteUserAndData db uid sd t0 tS t2).1 = true) :
    (deleteUserAndData db uid sd t0 tS t2).2.2 = expectedTrace sd ∧
    topoOK (deleteUserAndData db uid sd t0 tS t2).2.2 = true ∧
    accountFamsLast (deleteUserAndData db uid sd t0 tS t2).2.2 = false := by
  rcases hv : validateUserDeletion db uid with e | u
  · rw [deleteUserAndData_validate_err db uid sd t0 tS t2 e hv] at hok
    simp [exceptOk] at hok
  · cases u
    rcases ht : txBody db uid sd tS with ⟨e?, st⟩
    cases e? with
    | some e =>
      rw [deleteUserAndData_tx_err db uid sd t0 tS t2 e st hv ht] at hok
      simp [exceptOk] at hok
    | none =>
      obtain ⟨htr, -, -, -, -⟩ := txBody_ok db uid sd tS st ht
      rw [deleteUserAndData_tx_ok db uid sd t0 tS t2 st hv ht]
      refine ⟨htr, ?_, ?_⟩
      · show topoOK st.trace = true
        rw [htr]
        cases sd <;> decide
      · show accountFamsLast st.trace = false
        rw [htr]
        cases sd <;> decide

/-- C4 amended witness: the concrete successful run on `dbSolo1` has the
expected trace, in topological order, with the account families not
last. -/
theorem erase_order_amended_witness :
    (deleteUserAndData dbSolo1 1 true 0 0 0).2.2 = expectedTrace true ∧
    topoOK (deleteUserAndData dbSolo1 1 true 0 0 0).2.2 = true ∧
    accountFamsLast (deleteUserAndData dbSolo1 1 true 0 0 0).2.2 = false :=
  erase_order_amended dbSolo1 1 true 0 0 0 (by rfl)

/-! ### C5 — preflight validation -/

/-- C5: the preflight validator fails with the not-found error when no
user with the id exists and with the protected-account error when the
user's role is `ADMIN`; in either case the whole `deleteUserAndData` call
returns that error (wrapped) with the database unchanged and no write
issued; an existing non-`ADMIN` account passes validation whatever its
banned/inactive flags. -/
theorem preflight_validator (db : DB) (uid : Nat) (t0 tS t2 : Nat) :
    (db.users.find? (fun u => u.id == uid) = none →
      deleteUserAndData db uid true t0 tS t2 =
        (.error (wrapMsg uid (notFoundMsg uid)), db, [])) ∧
    (∀ w, db.users.find? (fun u => u.id == uid) = some w →
      (db.userRoles.find? (fun r => r.userId == uid)).any
        (fun r => r.role == "ADMIN") = true →
      deleteUserAndData db uid true t0 tS t2 =
        (.error (wrapMsg uid adminMsg), db, [])) ∧
    (∀ w, db.users.find? (fun u => u.id == uid) = some w →
      (db.userRoles.find? (fun r => r.userId == uid)).any
        (fun r => r.role == "ADMIN") = false →
      validateUserDeletion db uid = .ok ()) := by
  refine ⟨?_, ?_, ?_⟩
  · intro hfind
    have hv : validateUserDeletion db uid = .error (notFoundMsg uid) := by
      unfold validateUserDeletion
      rw [hfind]
    exact deleteUserAndData_validate_err db uid true t0 tS t2 _ hv
  · intro w hfind hadm
    have hv : validateUserDeletion db uid = .error adminMsg := by
      unfold validateUserDeletion
      rw [hfind]
      simp only [hadm, if_true]
    exact deleteUserAndData_validate_err db uid true t0 tS t2 _ hv
  · intro w hfind hadm
    unfold validateUserDeletion
    rw [hfind]
    simp only [hadm, if_false, Bool.false_eq_true]

/-- C5 witness: a missing user id (`7` on the empty database) yields the
wrapped not-found error and no change; the administrator `3` yields the
wrapped protected-account error and no change; the banned, inactive
ordinary user `4` passes validation. -/
theorem preflight_validator_witness :
    deleteUserAndData dbEmpty 7 true 0 0 0 =
      (.error (wrapMsg 7 (notFoundMsg 7)), dbEmpty, []) ∧
    deleteUserAndData dbAdmin 3 true 0 0 0 =
      (.error (wrapMsg 3 adminMsg), dbAdmin, []) ∧
    validateUserDeletion dbBanned 4 = .ok () :=
  ⟨(preflight_validator dbEmpty 7 0 0 0).1 (by rfl),
   (preflight_validator dbAdmin 3 0 0 0).2.1 _ (by rfl) (by rfl),
   (preflight_validator dbBanned 4 0 0 0).2.2 _ (by rfl) (by rfl)⟩

/-! ### C6 — safety-net soft delete -/

theorem deletedEmail_inj (t1 t2 : Nat) (h : deletedEmail t1 = deletedEmail t2) :
    t1 = t2 := by
  unfold deletedEmail at h
  have hd := congrArg String.data h
  simp only [String.data_append] at hd
  have h1 := List.append_cancel_right hd
  have h2 := List.append_cancel_left h1
  have h3 : natStr t1 = natStr t2 := by
    have := congrArg String.mk h2
    exact this
  exact natStr_injective t1 t2 h3

theorem deletedUsername_inj (t1 t2 : Nat)
    (h : deletedUsername t1 = deletedUsername t2) : t1 = t2 := by
  unfold deletedUsername at h
  have hd := congrArg String.data h
  simp only [String.data_append] at hd
  have h2 := List.append_cancel_left hd
  have h3 : natStr t1 = natStr t2 := by
    have := congrArg String.mk h2
    exact this
  exact natStr_injective t1 t2 h3

theorem txBody_true_trace_head (db : DB) (uid tS : Nat) (e? : Option String)
    (st : TxState) (h : txBody db uid true tS = (e?, st)) :
    st.trace.head? = some Event.softDelete := by
  have h' : stepThen (softDeleteStep uid tS ⟨db, [], []⟩)
      (runSteps (txSteps uid)) = (e?, st) := h
  unfold stepThen at h'
  rcases hs : softDeleteStep uid tS ⟨db, [], []⟩ with ⟨e1, st1⟩
  rw [hs] at h'
  have htr1 : st1.trace = [Event.softDelete] := by
    have := softDeleteStep_trace uid tS ⟨db, [], []⟩
    rw [hs] at this
    simpa using this
  cases e1 with
  | some e =>
    simp only [Prod.mk.injEq] at h'
    rw [← h'.2, htr1]
    rfl
  | none =>
    obtain ⟨t, htr⟩ := runSteps_trace_ext (txSteps uid) (txSteps_trace_ext uid) st1
    have h'' : runSteps (txSteps uid) st1 = (e?, st) := h'
    rw [h''] at htr
    rw [htr, htr1]
    rfl

/-- C6 amended: (i) with the guard enabled, the soft delete is the first
write issued inside the transaction on every run that passes validation,
whether or not a later step fails; (ii) it sets the account inactive and
banned with the machine-generated ban reason, rewrites email and username
to the timestamp-derived placeholders, and stamps the update instant;
(iii) the placeholders of two runs are distinct whenever the observed
instants differ — but only then: runs observing the same millisecond
collide (see the counterexample). -/
theorem soft_delete_amended :
    (∀ db uid t0 tS t2, validateUserDeletion db uid = .ok () →
      (deleteUserAndData db uid true t0 tS t2).2.2.head? =
        some Event.softDelete) ∧
    (∀ db uid tS db2, softDeleteUser db uid tS = .ok db2 →
      ∀ u ∈ db2.users, u.id = uid →
        u.isActive = false ∧ u.isBanned = true ∧
        u.banReason = some "Account deletion in progress" ∧
        u.email = deletedEmail tS ∧ u.username = deletedUsername tS ∧
        u.updatedAt = tS) ∧
    (∀ t1 t2, t1 ≠ t2 →
      deletedEmail t1 ≠ deletedEmail t2 ∧
      deletedUsername t1 ≠ deletedUsername t2) := by
  refine ⟨?_, ?_, ?_⟩
  · intro db uid t0 tS t2 hv
    rcases ht : txBody db uid true tS with ⟨e?, st⟩
    have hhead := txBody_true_trace_head db uid tS e? st ht
    cases e? with
    | some e =>
      rw [deleteUserAndData_tx_err db uid true t0 tS t2 e st hv ht]
      exact hhead
    | none =>
      rw [deleteUserAndData_tx_ok db uid true t0 tS t2 st hv ht]
      exact hhead
  · intro db uid tS db2 h u hu hid
    unfold softDeleteUser at h
    split at h
    · simp only [Except.ok.injEq] at h
      subst h
      simp only [List.mem_map] at hu
      obtain ⟨v, hv, hvu⟩ := hu
      by_cases hvid : (v.id == uid) = true
      · rw [if_pos hvid] at hvu
        subst hvu
        exact ⟨rfl, rfl, rfl, rfl, rfl, rfl⟩
      · rw [if_neg hvid] at hvu
        subst hvu
        rw [beq_iff_eq] at hvid
        exact absurd hid hvid
    · simp at h
  · intro t1 t2 hne
    exact ⟨fun h => hne (deletedEmail_inj t1 t2 h),
           fun h => hne (deletedUsername_inj t1 t2 h)⟩

/-- The database after soft-deleting user `1` of `dbSolo1` at instant 5. -/
def dbSolo1Soft : DB := (softDeleteUser dbSolo1 1 5).toOption.getD dbSolo1

/-- The soft-deleted user row of `dbSolo1Soft`. -/
def dbSolo1SoftUser : UserRow :=
  dbSolo1Soft.users.head?.getD ⟨0, true, false, none, "", "", 0⟩

/-- C6 amended witness: the guarded run on `dbSolo1` opens its trace with
the soft delete; the soft-deleted row of `dbSolo1` at instant 5 carries
the contracted field values; instants 5 and 6 give distinct
placeholders. -/
theorem soft_delete_amended_witness :
    (deleteUserAndData dbSolo1 1 true 0 5 9).2.2.head? = some Event.softDelete ∧
    (dbSolo1SoftUser.isActive = false ∧ dbSolo1SoftUser.isBanned = true ∧
     dbSolo1SoftUser.banReason = some "Account deletion in progress" ∧
     dbSolo1SoftUser.email = deletedEmail 5 ∧
     dbSolo1SoftUser.username = deletedUsername 5 ∧
     dbSolo1SoftUser.updatedAt = 5) ∧
    (deletedEmail 5 ≠ deletedEmail 6 ∧ deletedUsername 5 ≠ deletedUsername 6) :=
  ⟨soft_delete_amended.1 dbSolo1 1 0 5 9 (by rfl),
   soft_delete_amended.2.1 dbSolo1 1 5 dbSolo1Soft (by rfl) dbSolo1SoftUser
     (by decide) (by decide),
   soft_delete_amended.2.2 5 6 (by decide)⟩

/-- C6 counterexample: two distinct erasure runs (users `1` and `2`) that
observe the same instant produce identical placeholder email and username
values, so the placeholder values of distinct runs are not guaranteed
distinct. -/
theorem soft_delete_counterexample :
    (softDeleteUser dbSolo1 1 5).toOption.map
      (fun d => d.users.map (fun u => u.email)) =
      some ["deleted-5@deleted.invalid"] ∧
    (softDeleteUser dbSolo2 2 5).toOption.map
      (fun d => d.users.map (fun u => u.email)) =
      some ["deleted-5@deleted.invalid"] ∧
    (softDeleteUser dbSolo1 1 5).toOption.map
      (fun d => d.users.map (fun u => u.username)) = some ["deleted_5"] ∧
    (softDeleteUser dbSolo2 2 5).toOption.map
      (fun d => d.users.map (fun u => u.username)) = some ["deleted_5"] ∧
    (1 : Nat) ≠ 2 :=
  ⟨by rfl, by rfl, by rfl, by rfl, by decide⟩

/-! ### C7 — preview reporter -/

/-- The counts the preview returns on database `db` when no query fails. -/
def previewExpected (db : DB) (userId : Nat) : List (String × Nat) :=
  [("user", db.users.countP (fun u => u.id == userId)),
   ("posts", db.posts.countP (fun p => p.authorId == userId)),
   ("comments", db.comments.countP (fun c => c.authorId == userId)),
   ("likes", db.likes.countP (fun l => l.userId == userId)),
   ("savedPosts", db.savedPosts.countP (fun s => s.userId == userId)),
   ("follows", db.follows.countP
     (fun f => f.followerId == userId || f.followingId == userId)),
   ("followRequests", db.followRequests.countP
     (fun f => f.senderId == userId || f.receiverId == userId)),
   ("stories", db.stories.countP (fun s => s.userId == userId)),
   ("conversations", db.conversations.countP
     (fun c => c.user1Id == userId || c.user2Id == userId)),
   ("messages", db.messages.countP
     (fun m => m.senderId == userId || m.recipientId == userId)),
   ("notifications", db.notifications.countP
     (fun n => n.userId == userId || n.actorId == userId))]

/-- A store in which only the `likes` count query fails. -/
def qBad : PQ → Except String Nat
  | .likes => .error "boom"
  | .posts => .ok 3
  | _ => .ok 0

/-- C7 counterexample: with a store whose `likes` count query fails, the
preview call fails entirely with that error instead of returning the
counts of the other families, although their queries (e.g. `posts`)
answer fine. -/
theorem preview_counterexample :
    previewUserDeletion qBad = .error "boom" ∧ qBad .posts = .ok 3 :=
  ⟨by rfl, by rfl⟩

/-- C7 amended: the preview never mutates the store (it only issues count
queries) and on an all-answering store returns the counts of the eleven
user-facing families; but the per-family queries are not independent — the
call returns counts only if every query succeeded, the first failing query
aborting the whole call with its error. -/
theorem preview_amended :
    (∀ db uid, previewUserDeletion (qOfDb db uid) = .ok (previewExpected db uid)) ∧
    (∀ q out, previewUserDeletion q = .ok out →
      ∀ f ∈ previewOrder, ∃ n, q f = .ok n) := by
  constructor
  · intro db uid
    rfl
  · intro q out h f hf
    unfold previewUserDeletion at h
    rcases h1 : q PQ.user with e | v1 <;> rw [h1] at h
    · exact absurd (show (Except.error e : Except String (List (String × Nat))) = .ok out from h) (by simp)
    rcases h2 : q PQ.posts with e | v2 <;> rw [h2] at h
    · exact absurd (show (Except.error e : Except String (List (String × Nat))) = .ok out from h) (by simp)
    rcases h3 : q PQ.comments with e | v3 <;> rw [h3] at h
    · exact absurd (show (Except.error e : Except String (List (String × Nat))) = .ok out from h) (by simp)
    rcases h4 : q PQ.likes with e | v4 <;> rw [h4] at h
    · exact absurd (show (Except.error e : Except String (List (String × Nat))) = .ok out from h) (by simp)
    rcases h5 : q PQ.savedPosts with e | v5 <;> rw [h5] at h
    · exact absurd (show (Except.error e : Except String (List (String × Nat))) = .ok out from h) (by simp)
    rcases h6 : q PQ.follows with e | v6 <;> rw [h6] at h
    · exact absurd (show (Except.error e : Except String (List (String × Nat))) = .ok out from h) (by simp)
    rcases h7 : q PQ.followRequests with e | v7 <;> rw [h7] at h
    · exact absurd (show (Except.error e : Except String (List (String × Nat))) = .ok out from h) (by simp)
    rcases h8 : q PQ.stories with e | v8 <;> rw [h8] at h
    · exact absurd (show (Except.error e : Except String (List (String × Nat))) = .ok out from h) (by simp)
    rcases h9 : q PQ.conversations with e | v9 <;> rw [h9] at h
    · exact absurd (show (Except.error e : Except String (List (String × Nat))) = .ok out from h) (by simp)
    rcases h10 : q PQ.messages with e | v10 <;> rw [h10] at h
    · exact absurd (show (Except.error e : Except String (List (String × Nat))) = .ok out from h) (by simp)
    rcases h11 : q PQ.notifications with e | v11 <;> rw [h11] at h
    · exact absurd (show (Except.error e : Except String (List (String × Nat))) = .ok out from h) (by simp)
    simp only [previewOrder, List.mem_cons, List.not_mem_nil, or_false] at hf
    rcases hf with rfl | rfl | rfl | rfl | rfl | rfl | rfl | rfl | rfl | rfl | rfl
    · exact ⟨v1, h1⟩
    · exact ⟨v2, h2⟩
    · exact ⟨v3, h3⟩
    · exact ⟨v4, h4⟩
    · exact ⟨v5, h5⟩
    · exact ⟨v6, h6⟩
    · exact ⟨v7, h7⟩
    · exact ⟨v8, h8⟩
    · exact ⟨v9, h9⟩
    · exact ⟨v10, h10⟩
    · exact ⟨v11, h11⟩

/-- C7 amended witness: on the seeded `exDb` the preview returns the
expected counts, and a successful preview implies every query (e.g.
`likes`) answered. -/
theorem preview_amended_witness :
    previewUserDeletion (qOfDb exDb 1) = .ok (previewExpected exDb 1) ∧
    (∃ n, qOfDb exDb 1 PQ.likes = .ok n) :=
  ⟨preview_amended.1 exDb 1,
   preview_amended.2 (qOfDb exDb 1) (previewExpected exDb 1)
     (preview_amended.1 exDb 1) PQ.likes (by decide)⟩

/-! ### C8 — result shape and error propagation -/

/-- C8 counterexample: two failing runs of the same erasure that differ
only in their elapsed time raise the exact same error value — the
re-raised error is the single wrapped message and carries no elapsed-time
(nor structured classification) context. -/
theorem erase_error_counterexample :
    (deleteUserAndData dbEmpty 7 true 0 0 100).1 =
      .error (wrapMsg 7 (notFoundMsg 7)) ∧
    (deleteUserAndData dbEmpty 7 true 0 0 999).1 =
      .error (wrapMsg 7 (notFoundMsg 7)) ∧
    (100 - 0 : Nat) ≠ 999 - 0 :=
  ⟨by rfl, by rfl, by decide⟩

/-- C8 amended: `deleteUserAndData` either returns a record
`{ success, deletedCounts, duration }` with `success = true` and
`duration` the elapsed time, or raises a single error whose message wraps
the user id and the underlying failure message; the taxonomy
classification and the elapsed time are logged only, not part of the
raised error. -/
theorem erase_result_amended (db : DB) (uid : Nat) (sd : Bool) (t0 tS t2 : Nat) :
    (∀ res, (deleteUserAndData db uid sd t0 tS t2).1 = .ok res →
      res.success = true ∧ res.duration = t2 - t0) ∧
    (∀ e, (deleteUserAndData db uid sd t0 tS t2).1 = .error e →
      ∃ m, e = wrapMsg uid m) := by
  rcases hv : validateUserDeletion db uid with e' | u
  · rw [deleteUserAndData_validate_err db uid sd t0 tS t2 e' hv]
    constructor
    · intro res hres
      simp at hres
    · intro e he
      simp only [Except.error.injEq] at he
      exact ⟨e', he.symm⟩
  · cases u
    rcases ht : txBody db uid sd tS with ⟨e?, st⟩
    cases e? with
    | some e' =>
      rw [deleteUserAndData_tx_err db uid sd t0 tS t2 e' st hv ht]
      constructor
      · intro res hres
        simp at hres
      · intro e he
        simp only [Except.error.injEq] at he
        exact ⟨e', he.symm⟩
    | none =>
      rw [deleteUserAndData_tx_ok db uid sd t0 tS t2 st hv ht]
      constructor
      · intro res hres
        simp only [Except.ok.injEq] at hres
        subst hres
        exact ⟨rfl, rfl⟩
      · intro e he
        simp at he

/-- C8 amended witness: the successful run on `exDb` yields
`success = true` with `duration = 9 - 0`; the failing run on the empty
database raises a wrapped message. -/
theorem erase_result_amended_witness :
    (DeleteResult.mk true exOkCounts 9).success = true ∧
    (DeleteResult.mk true exOkCounts 9).duration = 9 - 0 ∧
    (∃ m, wrapMsg 7 (notFoundMsg 7) = wrapMsg 7 m) := by
  refine ⟨?_, ?_, ?_⟩
  · exact ((erase_result_amended exDb 1 true 0 5 9).1 ⟨true, exOkCounts, 9⟩ (by rfl)).1
  · exact ((erase_result_amended exDb 1 true 0 5 9).1 ⟨true, exOkCounts, 9⟩ (by rfl)).2
  · exact (erase_result_amended dbEmpty 7 true 0 0 100).2
      (wrapMsg 7 (notFoundMsg 7)) (by rfl)

/-! ### C10 — the success flag is constantly true -/

/-- C10: `deleteUserAndData` never returns a record with
`success = false`: every normal return has `success = true` and a
`deletedCounts` entry `user = 1`. -/
theorem erase_success_flag (db : DB) (uid : Nat) (sd : Bool) (t0 tS t2 : Nat)
    (res : DeleteResult)
    (h : (deleteUserAndData db uid sd t0 tS t2).1 = .ok res) :
    res.success = true ∧ ("user", 1) ∈ res.deletedCounts := by
  rcases hv : validateUserDeletion db uid with e' | u
  · rw [deleteUserAndData_validate_err db uid sd t0 tS t2 e' hv] at h
    simp at h
  · cases u
    rcases ht : txBody db uid sd tS with ⟨e?, st⟩
    cases e? with
    | some e' =>
      rw [deleteUserAndData_tx_err db uid sd t0 tS t2 e' st hv ht] at h
      simp at h
    | none =>
      rw [deleteUserAndData_tx_ok db uid sd t0 tS t2 st hv ht] at h
      simp only [Except.ok.injEq] at h
      subst h
      obtain ⟨-, hc, -, -, -⟩ := txBody_ok db uid sd tS st ht
      exact ⟨rfl, hc⟩

/-- C10 witness: the successful run on `exDb` returns `success = true` and
counts containing `user = 1`. -/
theorem erase_success_flag_witness :
    (DeleteResult.mk true exOkCounts 9).success = true ∧
    ("user", 1) ∈ (DeleteResult.mk true exOkCounts 9).deletedCounts :=
  erase_success_flag exDb 1 true 0 5 9 ⟨true, exOkCounts, 9⟩ (by rfl)

end SocialErase
